import Mathlib

/-!
TicketAnalysisSystem front end (`static/js/FrontEnd.js`)

A shallow embedding of the browser script: the page is a record of the DOM
properties, module variables and `localStorage` keys the script reads and
writes, and every event handler is a function on that record.  Values that
come from the browser rather than from the script (the clock, the text
layout of an element, the files of an event, the server responses) are
arguments of the handlers.
-/

namespace FrontEnd

/-! ## JavaScript values -/

/-- The values of a parsed JSON text as the script sees them; `undefined` is
what reading a missing property gives.  A number is given by the text
JavaScript prints for it (`"5"`, `"4.5"`, `"1e+21"`): the script only prints
numbers and tests them for truth.  An array or object is given by the text it
prints as (`"[object Object]"` for an object, the joined elements for an
array). -/
inductive JsVal where
  | undefined
  | null
  | bool (b : Bool)
  | num (text : String)
  | str (s : String)
  | object (text : String)
deriving DecidableEq, Repr

namespace JsVal

/-- The truthiness test of `if (v)` and `v || d`.  The falsy numbers are the two
zeros, both printed `0`, and `NaN`. -/
def truthy : JsVal → Bool
  | undefined => false
  | null => false
  | bool b => b
  | num text => text != "0" && text != "NaN"
  | str s => s != ""
  | object _ => true

/-- The text a template literal inserts for `${v}`. -/
def toStr : JsVal → String
  | undefined => "undefined"
  | null => "null"
  | bool b => if b then "true" else "false"
  | num text => text
  | str s => s
  | object text => text

/-- The value of `v || d` for a string literal `d`. -/
def orElse (v : JsVal) (d : String) : JsVal :=
  if v.truthy then v else str d

end JsVal

/-- One element of the `data` array of the upload response: the properties the
script reads.  A property the object lacks is `undefined`. -/
structure Row where
  id : JsVal
  configurationItem : JsVal
  severityScore : JsVal
  frequencyScore : JsVal
  impactScore : JsVal
  riskLevel : JsVal
  solution : JsVal
  location : JsVal
deriving DecidableEq, Repr

/-- A `File` object: its name and its bytes. -/
structure File where
  name : String
  content : String
deriving DecidableEq, Repr

/-- One entry of the `historyData` list. -/
structure UploadRecord where
  file : String
  time : String
  summary : String
deriving DecidableEq, Repr

/-- The `localStorage` keys of the script.  A key that was never set is `none`.
`historyData` holds the list its JSON text encodes. -/
structure Storage where
  historyData : Option (List UploadRecord)
  resultHTML : Option String
  summaryHTML : Option String
  darkMode : Option String
deriving DecidableEq, Repr

/-- A request the page has sent. -/
inductive Request where
  | getFiles
  | postUpload (file : File)
deriving DecidableEq, Repr

/-- A number as the progress handler can compute one from non-negative
operands: a finite value, `Infinity` or `NaN`. -/
inductive Num where
  | finite (q : ℚ)
  | infinity
  | nan
deriving DecidableEq

/-- The page: module variables, the DOM properties the handlers touch, the
alerts shown, the requests sent and the storage. -/
structure Page where
  droppedFile : Option File
  inputFiles : List File
  fileInfoText : String
  fileInfoColor : String
  submitDisabled : Bool
  spinnerShown : Bool
  progressShown : Bool
  progressFillWidth : Num
  progressPercentText : Num
  resultHTML : String
  summaryHTML : String
  historyItems : List String
  toastShown : Bool
  alerts : List String
  requests : List Request
  bodyDark : Bool
  toggleCaption : String
  storage : Storage
deriving DecidableEq

/-- A page right after its markup is parsed, before any handler has run, with
the given storage and the given `dark-mode` class on `body`. -/
def Page.fresh (storage : Storage) (bodyDark : Bool) : Page :=
  { droppedFile := none, inputFiles := [], fileInfoText := "", fileInfoColor := "",
    submitDisabled := true, spinnerShown := false, progressShown := false,
    progressFillWidth := Num.finite 0, progressPercentText := Num.finite 0, resultHTML := "",
    summaryHTML := "", historyItems := [], toastShown := false, alerts := [],
    requests := [], bodyDark := bodyDark, toggleCaption := "", storage := storage }

/-- A storage with no key set. -/
def Storage.empty : Storage :=
  { historyData := none, resultHTML := none, summaryHTML := none, darkMode := none }

/-! ## `updateSummary` -/

/-- The five constants `updateSummary` computes. -/
structure SummaryCounts where
  total : Nat
  high : Nat
  medium : Nat
  low : Nat
  ignore : Nat
deriving DecidableEq, Repr

/-- The counting part of `updateSummary`: `data.length` and four
`data.filter(d => d.riskLevel === ...).length`. -/
def summaryCounts (data : List Row) : SummaryCounts :=
  { total := data.length
    high := (data.filter (fun d => d.riskLevel == JsVal.str "高風險")).length
    medium := (data.filter (fun d => d.riskLevel == JsVal.str "中風險")).length
    low := (data.filter (fun d => d.riskLevel == JsVal.str "低風險")).length
    ignore := (data.filter (fun d => d.riskLevel == JsVal.str "忽略")).length }

/-- The template literal `updateSummary` assigns to `summaryBox.innerHTML`. -/
def summaryMarkup (c : SummaryCounts) : String :=
  "\n        共 <strong>" ++ toString c.total ++ "</strong> 筆紀錄：<br>" ++
  "\n        🚨 高風險：<strong>" ++ toString c.high ++ "</strong> 筆<br>" ++
  "\n        ⚠️ 中風險：<strong>" ++ toString c.medium ++ "</strong> 筆<br>" ++
  "\n        ✅ 低風險：<strong>" ++ toString c.low ++ "</strong> 筆<br>" ++
  "\n        🟢 忽略：<strong>" ++ toString c.ignore ++ "</strong> 筆" ++
  "\n    "

/-- The function `updateSummary(data)`. -/
def updateSummary (data : List Row) (s : Page) : Page :=
  { s with summaryHTML := summaryMarkup (summaryCounts data) }

/-- The four risk levels `updateSummary` counts. -/
def knownRiskLevels : List JsVal :=
  [JsVal.str "高風險", JsVal.str "中風險", JsVal.str "低風險", JsVal.str "忽略"]

/-- The row of the scenario `{id:"INC1", riskLevel:"高風險", severityScore:5,
frequencyScore:3, impactScore:4}`. -/
def rowINC1 : Row :=
  { id := JsVal.str "INC1", configurationItem := JsVal.undefined,
    severityScore := JsVal.num "5", frequencyScore := JsVal.num "3",
    impactScore := JsVal.num "4", riskLevel := JsVal.str "高風險",
    solution := JsVal.undefined, location := JsVal.undefined }

/-! ## `addHistoryItem` -/

/-- The markup of one history entry, the template assigned to `li.innerHTML`
in `addHistoryItem` and in the page-load handler. -/
def historyItemMarkup (fileName time summaryText : String) : String :=
  "<strong>" ++ fileName ++ "</strong> - " ++ time ++ "<br><span>" ++ summaryText ++ "</span>"

/-- The function `addHistoryItem(fileName, summaryText)`; `time` is what
`new Date().toLocaleTimeString()` returns at the call. -/
def addHistoryItem (fileName summaryText time : String) (s : Page) : Page :=
  let record : UploadRecord := { file := fileName, time := time, summary := summaryText }
  let stored := s.storage.historyData.getD []
  { s with
    storage := { s.storage with historyData := some (record :: stored) }
    historyItems := historyItemMarkup fileName time summaryText :: s.historyItems }

/-- One call of `addHistoryItem`: file name, summary text and the clock's
time string. -/
structure HistoryCall where
  fileName : String
  summaryText : String
  time : String
deriving DecidableEq, Repr

/-- The record `addHistoryItem` builds for a call. -/
def HistoryCall.record (c : HistoryCall) : UploadRecord :=
  { file := c.fileName, time := c.time, summary := c.summaryText }

/-- A sequence of `addHistoryItem` calls, the first of the list first. -/
def addHistoryItems (calls : List HistoryCall) (s : Page) : Page :=
  calls.foldl (fun acc c => addHistoryItem c.fileName c.summaryText c.time acc) s

/-! ## File selection: drop, change -/

/-- The `drop` listener of the drop area; `files` is `e.dataTransfer.files`.
With no file in the list, `droppedFile.name` throws after the first two
assignments. -/
def dropHandler (files : List File) (s : Page) : Page :=
  match files.head? with
  | none => { s with droppedFile := none, inputFiles := files }
  | some f =>
    { s with
      droppedFile := some f
      inputFiles := files
      fileInfoText := "已拖曳檔案：" ++ f.name
      submitDisabled := false }

/-- The `change` listener of the file input; `files` is the selection the
browser has just put in `this.files`. -/
def changeHandler (files : List File) (s : Page) : Page :=
  match files.head? with
  | some f =>
    { s with
      inputFiles := files
      fileInfoText := "已選擇檔案：" ++ f.name
      submitDisabled := false }
  | none => { s with inputFiles := files, fileInfoText := "", submitDisabled := true }

/-- A user action that supplies a file. -/
inductive FileEvent where
  | drop (files : List File)
  | change (files : List File)
deriving DecidableEq, Repr

/-- The file an event supplies: the first of its list. -/
def FileEvent.supplied : FileEvent → Option File
  | drop files => files.head?
  | change files => files.head?

/-- The handler of one file event. -/
def fileEventHandler (s : Page) : FileEvent → Page
  | FileEvent.drop files => dropHandler files s
  | FileEvent.change files => changeHandler files s

/-- The handlers of a sequence of file events, run in order. -/
def runFileEvents (events : List FileEvent) (s : Page) : Page :=
  events.foldl fileEventHandler s

/-- The constant `file` of the submit handler: `droppedFile || fileInput.files[0]`. -/
def selectedFile (s : Page) : Option File :=
  match s.droppedFile with
  | some f => some f
  | none => s.inputFiles.head?

/-! ## Submit and duplicate check -/

/-- The submit listener up to `checkDuplicateAndUpload()`: the page after it
and the file its closures captured, `none` when it returned at `!file`. -/
def submitHandler (s : Page) : Page × Option File :=
  let s1 : Page :=
    { s with
      spinnerShown := true
      resultHTML := ""
      summaryHTML := ""
      progressFillWidth := Num.finite 0
      progressPercentText := Num.finite 0
      progressShown := true }
  match selectedFile s with
  | none =>
    ({ s1 with
       alerts := s1.alerts ++ ["請選擇檔案"]
       spinnerShown := false
       progressShown := false }, none)
  | some file => ({ s1 with requests := s1.requests ++ [Request.getFiles] }, some file)

/-- The value `JSON.parse(xhrCheck.responseText).files` of a loaded check:
an array, a string, or anything on which calling `.includes` throws (the body
does not parse, is `null` or has no `files`, or `files` is `null`, a number,
a boolean or an object). -/
inductive FilesValue where
  | array (items : List JsVal)
  | text (s : String)
  | notSearchable
deriving DecidableEq, Repr

/-- The call `existingFiles.includes(filename)`: membership in an array (an
element equals a string only when it is that string), the substring test on
a string, `none` when the call throws. -/
def FilesValue.includes (files : FilesValue) (filename : String) : Option Bool :=
  match files with
  | FilesValue.array items => some (items.contains (JsVal.str filename))
  | FilesValue.text s => some (decide (filename.data <:+: s.data))
  | FilesValue.notSearchable => none

/-- How the `GET /files` request ends: `xhrCheck.onerror`, or `xhrCheck.onload`
with a status and the `files` value of the body. -/
inductive CheckResult where
  | transportError
  | loaded (status : Nat) (files : FilesValue)
deriving DecidableEq, Repr

/-- The handlers `xhrCheck.onload` and `xhrCheck.onerror` of a submit that
captured `file`.  When `.includes` throws the handler ends there. -/
def checkHandler (file : File) (r : CheckResult) (s : Page) : Page :=
  match r with
  | CheckResult.transportError =>
    { s with alerts := s.alerts ++ ["⚠️ 檢查檔案是否存在時發生錯誤"] }
  | CheckResult.loaded status existingFiles =>
    if status = 200 then
      match existingFiles.includes file.name with
      | none => s
      | some true =>
        { s with
          spinnerShown := false
          progressShown := false
          alerts := s.alerts ++
            ["❌ 上傳失敗：檔案 \"" ++ file.name ++ "\" 已存在，請重新命名或更換檔案"]
          fileInfoText := "❌ \"" ++ file.name ++ "\" 已存在，請重新命名"
          fileInfoColor := "red" }
      | some false => { s with requests := s.requests ++ [Request.postUpload file] }
    else { s with alerts := s.alerts ++ ["⚠️ 無法檢查檔案是否重複，請稍後再試"] }

/-- A submit followed by the end of its duplicate check. -/
def submitAndCheck (r : CheckResult) (s : Page) : Page :=
  match submitHandler s with
  | (s1, none) => s1
  | (s1, some file) => checkHandler file r s1

/-- The files the page has posted to `/upload`, oldest first. -/
def uploadsSent (s : Page) : List File :=
  s.requests.filterMap fun r =>
    match r with
    | Request.postUpload f => some f
    | Request.getFiles => none

/-! ## Rendering the rows -/

/-- The opening of `tableHtml`, up to the `${data.data.map(...)}` slot. -/
def tableHead : String :=
  "\n          <div class=\"table-responsive\">" ++
  "\n            <table id=\"resultTable\" class=\"display\">" ++
  "\n              <thead>" ++
  "\n                <tr>" ++
  "\n                  <th>Incident</th>" ++
  "\n                  <th>Config Item</th>" ++
  "\n                  <th>Severity</th>" ++
  "\n                  <th>Frequency</th>" ++
  "\n                  <th>Impact</th>" ++
  "\n                  <th>Risk Level</th>" ++
  "\n                  <th>Solution</th>" ++
  "\n                  <th>Location</th>" ++
  "\n                </tr>" ++
  "\n              </thead>" ++
  "\n              <tbody>" ++
  "\n                "

/-- The rest of `tableHtml` after the slot. -/
def tableFoot : String :=
  "\n              </tbody>" ++
  "\n            </table>" ++
  "\n            </div>" ++
  "\n        "

/-- The template literal the `map` callback of `tableHtml` returns for `item`. -/
def tableRow (item : Row) : String :=
  "\n                  <tr>" ++
  "\n                    <td>" ++ (item.id.orElse "").toStr ++ "</td>" ++
  "\n                    <td>" ++ (item.configurationItem.orElse "").toStr ++ "</td>" ++
  "\n                    <td>" ++ item.severityScore.toStr ++ "</td>" ++
  "\n                    <td>" ++ item.frequencyScore.toStr ++ "</td>" ++
  "\n                    <td>" ++ item.impactScore.toStr ++ "</td>" ++
  "\n                    <td>" ++ ("<span class=\"badge " ++ item.riskLevel.toStr ++ "\">" ++
    item.riskLevel.toStr ++ "</span>") ++ "</td>" ++
  "\n                    <td>" ++ (item.solution.orElse "—").toStr ++ "</td>" ++
  "\n                    <td>" ++ (item.location.orElse "—").toStr ++ "</td>" ++
  "\n                  </tr>" ++
  "\n                "

/-- The constant `tableHtml` of `xhr.onload`: the rows are mapped and joined
with the empty separator. -/
def tableHtml (data : List Row) : String :=
  tableHead ++ String.join (data.map tableRow) ++ tableFoot

/-- The array `headers` of `previewBtn.onclick`. -/
def previewHeaders : List String :=
  ["Incident", "Config Item", "Severity", "Frequency", "Impact", "Risk Level",
   "Solution", "Location"]

/-- The template literal `previewBtn.onclick` appends to `html` for `item`. -/
def previewRow (item : Row) : String :=
  "\n                                <tr>" ++
  "\n                                  <td>" ++ (item.id.orElse "").toStr ++ "</td>" ++
  "\n                                  <td>" ++ (item.configurationItem.orElse "").toStr ++
    "</td>" ++
  "\n                                  <td>" ++ item.severityScore.toStr ++ "</td>" ++
  "\n                                  <td>" ++ item.frequencyScore.toStr ++ "</td>" ++
  "\n                                  <td>" ++ item.impactScore.toStr ++ "</td>" ++
  "\n                                  <td>" ++ ("<span class=\"badge " ++
    item.riskLevel.toStr ++ "\">" ++ item.riskLevel.toStr ++ "</span>") ++ "</td>" ++
  "\n                                  <td>" ++ (item.solution.orElse "—").toStr ++ "</td>" ++
  "\n                                  <td>" ++ (item.location.orElse "—").toStr ++ "</td>" ++
  "\n                                </tr>" ++
  "\n                            "

/-- The markup `previewBtn.onclick` assigns to `modalContent.innerHTML`: the
variable `html` grows by `+=` in the two `forEach` loops. -/
def previewHtml (data : List Row) : String :=
  let html := "<table class=\"table table-bordered table-sm\"><thead><tr>"
  let html := previewHeaders.foldl (fun html h => html ++ ("<th>" ++ h ++ "</th>")) html
  let html := html ++ "</tr></thead><tbody>"
  let html := data.foldl (fun html item => html ++ previewRow item) html
  html ++ "</tbody></table>"

/-- The opening of the preview table: `html` after the header loop and the
`</tr></thead><tbody>` that follows it. -/
def previewHead : String :=
  previewHeaders.foldl (fun html h => html ++ ("<th>" ++ h ++ "</th>"))
    "<table class=\"table table-bordered table-sm\"><thead><tr>" ++ "</tr></thead><tbody>"

/-- The fixed text around the cells of one table row: what opens the row, what
opens and closes each cell, what closes the row. -/
structure RowLayout where
  trOpen : String
  tdOpen : String
  tdClose : String
  trClose : String

/-- A row with the given cell contents in the given layout. -/
def rowMarkup (l : RowLayout) (cells : List String) : String :=
  l.trOpen ++ String.join (cells.map fun c => l.tdOpen ++ c ++ l.tdClose) ++ l.trClose

/-- The layout of the rows of the result table. -/
def tableLayout : RowLayout :=
  { trOpen := "\n                  <tr>"
    tdOpen := "\n                    <td>"
    tdClose := "</td>"
    trClose := "\n                  </tr>" ++ "\n                " }

/-- The layout of the rows of the preview table. -/
def previewLayout : RowLayout :=
  { trOpen := "\n                                <tr>"
    tdOpen := "\n                                  <td>"
    tdClose := "</td>"
    trClose := "\n                                </tr>" ++ "\n                            " }

/-- The risk level badge of a row. -/
def riskBadge (item : Row) : String :=
  "<span class=\"badge " ++ item.riskLevel.toStr ++ "\">" ++ item.riskLevel.toStr ++ "</span>"

/-- The text of an optional field: the field's text, or the placeholder when
the field is missing or otherwise falsy. -/
def textOr (v : JsVal) (placeholder : String) : String :=
  if v.truthy then v.toStr else placeholder

/-- The eight cell contents of a row: id, configuration item, the three scores,
the risk level badge, solution and location. -/
def rowCells (item : Row) : List String :=
  [textOr item.id "", textOr item.configurationItem "", item.severityScore.toStr,
   item.frequencyScore.toStr, item.impactScore.toStr, riskBadge item,
   textOr item.solution "—", textOr item.location "—"]

/-! ## Reading a table back

The script writes tables as markup; the rows and cells of the table are what a
browser builds from that markup.  For markup of the shape the script writes,
with the plain tags `<tbody>`, `<tr>`, `<td>` and their closing tags, these
functions read the body rows back: the `tr` elements between `<tbody>` and
`</tbody>`, and in each the contents of its `td` elements. -/

/-- The text before and the text after the first occurrence of `delim`. -/
def cutAt (delim : List Char) : List Char → Option (List Char × List Char)
  | [] => none
  | c :: cs =>
    if delim.isPrefixOf (c :: cs) then some ([], (c :: cs).drop delim.length)
    else (cutAt delim cs).map fun p => (c :: p.1, p.2)

/-- The contents of the `td` elements of a row, in order; `fuel` bounds their
number. -/
def readCells : Nat → List Char → List (List Char)
  | 0, _ => []
  | fuel + 1, s =>
    match cutAt "<td>".data s with
    | none => []
    | some (_, rest) =>
      match cutAt "</td>".data rest with
      | none => []
      | some (cell, rest) => cell :: readCells fuel rest

/-- The `tr` elements of a table body, each as its cells, in order; `fuel`
bounds their number. -/
def readRows : Nat → List Char → List (List (List Char))
  | 0, _ => []
  | fuel + 1, s =>
    match cutAt "<tr>".data s with
    | none => []
    | some (_, rest) =>
      match cutAt "</tr>".data rest with
      | none => []
      | some (row, rest) => readCells row.length row :: readRows fuel rest

/-- The body rows of a table markup: the rows between `<tbody>` and
`</tbody>`, each as the list of its cell contents. -/
def tableBodyRows (html : String) : List (List String) :=
  match cutAt "<tbody>".data html.data with
  | none => []
  | some (_, rest) =>
    match cutAt "</tbody>".data rest with
    | none => []
    | some (body, _) => (readRows body.length body).map fun row => row.map String.mk

/-- No occurrence of `delim` can start inside the text, whatever follows it:
at every position the text and `delim` differ before either ends. -/
def noStart (delim : List Char) : List Char → Bool
  | [] => true
  | c :: cs =>
    !(delim.isPrefixOf (c :: cs) || (c :: cs).isPrefixOf delim) && noStart delim cs

/-- The characters of one cell in a layout. -/
def cellChars (l : RowLayout) (c : String) : List Char :=
  l.tdOpen.data ++ c.data ++ l.tdClose.data

/-- The characters of `rowMarkup l cells`. -/
def rowChars (l : RowLayout) (cells : List String) : List Char :=
  l.trOpen.data ++ (cells.map (cellChars l)).flatten ++ l.trClose.data

/-- A layout whose fixed text is plain tags and filler: the row opens with
filler and `<tr>`, a cell with filler and `<td>`, a cell closes with `</td>`,
and the row closes with filler, `</tr>` and filler. -/
def RowLayout.readable (l : RowLayout) : Bool :=
  ((cutAt "<tr>".data l.trOpen.data).map Prod.snd == some []) &&
  ((cutAt "<td>".data l.tdOpen.data).map Prod.snd == some []) &&
  (l.tdClose.data == "</td>".data) &&
  noStart "</tr>".data l.tdOpen.data &&
  noStart "</tbody>".data l.trOpen.data &&
  noStart "</tbody>".data l.tdOpen.data &&
  noStart "</tbody>".data l.trClose.data &&
  (match cutAt "</tr>".data l.trClose.data with
   | some (before, after) => noStart "<td>".data before && noStart "<tr>".data after
   | none => false)

/-- The eight texts the row templates insert for a row: the fields as printed,
with the fallbacks of `||`. -/
def rowTexts (item : Row) : List String :=
  [textOr item.id "", textOr item.configurationItem "", item.severityScore.toStr,
   item.frequencyScore.toStr, item.impactScore.toStr, item.riskLevel.toStr,
   textOr item.solution "—", textOr item.location "—"]

/-- A row whose `solution` text closes its cell and its row and opens another
row. -/
def rowWithMarkup : Row :=
  { rowINC1 with solution := JsVal.str "x</td></tr><tr><td>y" }

/-! ## The upload response -/

/-- The parsed body of the `POST /upload` response: its `error` and `data`
properties (`undefined` and `none` when absent). -/
structure UploadBody where
  error : JsVal
  data : Option (List Row)
deriving DecidableEq, Repr

/-- The paragraph the error branch of `xhr.onload` shows. -/
def errorParagraph (message : String) : String :=
  "<p style=\"color:red\">錯誤：" ++ message ++ "</p>"

/-- The handler `xhr.onload` of a submit that captured `file`.  `body` is
`JSON.parse(xhr.responseText)`, `none` when that throws; `time` is the clock's
time string and `innerText` the browser's text rendering of a markup.  A
`data` that is absent makes `data.data.map` throw, which ends the handler. -/
def uploadOnload (file : File) (status : Nat) (body : Option UploadBody) (time : String)
    (innerText : String → String) (s : Page) : Page :=
  let s1 : Page :=
    { s with
      spinnerShown := false
      progressShown := false
      storage :=
        { s.storage with resultHTML := some s.resultHTML, summaryHTML := some s.summaryHTML } }
  if status = 200 then
    match body with
    | none => s1
    | some data =>
      if data.error.truthy then
        { s1 with resultHTML := errorParagraph data.error.toStr }
      else
        match data.data with
        | none => s1
        | some rows =>
          let s2 : Page := { s1 with resultHTML := tableHtml rows }
          let s3 := updateSummary rows s2
          let s4 : Page := { s3 with toastShown := true }
          let s5 := addHistoryItem file.name (innerText s4.summaryHTML) time s4
          { s5 with inputFiles := [], droppedFile := none }
  else
    { s1 with resultHTML := "<p style=\"color:red\">伺服器錯誤，請稍後再試。</p>" }

/-- The handler `xhr.onerror`. -/
def uploadOnerror (s : Page) : Page :=
  { s with
    spinnerShown := false
    progressShown := false
    resultHTML := "<p style=\"color:red\">發生錯誤，請稍後再試。</p>" }

/-! ## Upload progress

The progress handler computes in doubles.  A finite double is the rational it
denotes, and each operation is the exact rational operation followed by
rounding to the nearest double. -/

/-- Rounding to the nearest integer, to the even one on a tie. -/
def roundHalfEven (q : ℚ) : ℤ :=
  if q - ⌊q⌋ < 1 / 2 then ⌊q⌋
  else if 1 / 2 < q - ⌊q⌋ then ⌊q⌋ + 1
  else if ⌊q⌋ % 2 = 0 then ⌊q⌋ else ⌊q⌋ + 1

/-- The double nearest to `x`: 53 significant bits, ties to the even
significand.  The exponent is not bounded; `event.loaded` and `event.total`
are unsigned 64-bit integers, so every value the progress handler computes is
zero or lies between `2^-64` and `2^71`, inside the normal range of doubles. -/
def roundDouble (x : ℚ) : ℚ :=
  if x = 0 then 0
  else if 0 < x then (roundHalfEven (x / 2 ^ (Int.log 2 x - 52)) : ℚ) * 2 ^ (Int.log 2 x - 52)
  else -((roundHalfEven (-x / 2 ^ (Int.log 2 (-x) - 52)) : ℚ) * 2 ^ (Int.log 2 (-x) - 52))

/-- The Number an unsigned 64-bit attribute such as `event.loaded` is read as. -/
def toNumber (n : Nat) : ℚ :=
  roundDouble n

/-- The number `x.toFixed(digits)` denotes for a finite `x`: the multiple of
`10^-digits` nearest to `x`, the one of larger magnitude on a tie. -/
def toFixed (x : ℚ) (digits : Nat) : ℚ :=
  if 0 ≤ x then (⌊x * 10 ^ digits + 1 / 2⌋ : ℚ) / 10 ^ digits
  else -((⌊-x * 10 ^ digits + 1 / 2⌋ : ℚ) / 10 ^ digits)

/-- The value of `(event.loaded / event.total) * 100` for a non-zero total:
the quotient is rounded, then the product. -/
def percentDouble (loaded total : Nat) : ℚ :=
  roundDouble (roundDouble (toNumber loaded / toNumber total) * 100)

/-- The constant `percent` of the progress handler; a zero total gives `NaN`
for `0 / 0` and `Infinity` otherwise. -/
def progressPercent (loaded total : Nat) : Num :=
  if toNumber total = 0 then
    if toNumber loaded = 0 then Num.nan else Num.infinity
  else Num.finite (percentDouble loaded total)

/-- The number the text of `percent.toFixed(digits)` denotes; `Infinity` and
`NaN` print as themselves. -/
def Num.toFixed (x : Num) (digits : Nat) : Num :=
  match x with
  | Num.finite q => Num.finite (FrontEnd.toFixed q digits)
  | Num.infinity => Num.infinity
  | Num.nan => Num.nan

/-- The handler `xhr.upload.onprogress`: the two numbers shown before `%`.
The width `NaN%` or `Infinity%` is no valid style value, so the assignment
leaves the bar as it is. -/
def onprogress (lengthComputable : Bool) (loaded total : Nat) (s : Page) : Page :=
  if lengthComputable then
    { s with
      progressFillWidth :=
        match progressPercent loaded total with
        | Num.finite q => Num.finite (toFixed q 2)
        | _ => s.progressFillWidth
      progressPercentText := (progressPercent loaded total).toFixed 0 }
  else s

/-! ## Dark mode and page load -/

/-- The `click` listener of the dark-mode button. -/
def toggleDarkMode (s : Page) : Page :=
  let isDark := !s.bodyDark
  { s with
    bodyDark := isDark
    toggleCaption := if isDark then "🌙 深色模式" else "🌞 淺色模式"
    storage := { s.storage with darkMode := some (if isDark then "true" else "false") } }

/-- The `DOMContentLoaded` listener, first part: empty the visible history list
and put back the cached result and summary markup, each only when its key
holds a non-empty string. -/
def restoreCachedView (s : Page) : Page :=
  let s1 : Page := { s with historyItems := [] }
  let s2 : Page :=
    match s1.storage.resultHTML with
    | some html => if html != "" then { s1 with resultHTML := html } else s1
    | none => s1
  match s2.storage.summaryHTML with
  | some html => if html != "" then { s2 with summaryHTML := html } else s2
  | none => s2

/-- The `DOMContentLoaded` listener, second part: `savedHistory.forEach` appends
one entry per stored record to the visible list. -/
def rebuildHistory (s : Page) : Page :=
  (s.storage.historyData.getD []).foldl
    (fun acc item =>
      { acc with
        historyItems :=
          acc.historyItems ++ [historyItemMarkup item.file item.time item.summary] })
    s

/-- The `DOMContentLoaded` listener, last part: `isDark` is the stored flag as
read when the listener starts; an unset flag is stored as `"true"`, the flag
`"false"` removes the class, and the flag read again sets class and caption. -/
def applyDarkMode (s : Page) : Page :=
  let isDark := s.storage.darkMode
  let (isDark, s1) : Option String × Page :=
    match isDark with
    | none => (some "true", { s with storage := { s.storage with darkMode := some "true" } })
    | some v => (some v, s)
  let s2 : Page := if isDark = some "false" then { s1 with bodyDark := false } else s1
  let isDarktext := decide (s2.storage.darkMode = some "true")
  if isDarktext then { s2 with bodyDark := true, toggleCaption := "🌞 淺色模式" }
  else { s2 with bodyDark := false, toggleCaption := "🌙 深色模式" }

/-- The `DOMContentLoaded` listener.  The first two parts leave the storage as
it is, so the flag the last part reads is the one the listener starts with. -/
def pageLoad (s : Page) : Page :=
  applyDarkMode (rebuildHistory (restoreCachedView s))

/-! ## The scenario of the specification -/

/-- The file `report.xlsx` of the scenario. -/
def reportFile : File := { name := "report.xlsx", content := "INC1" }

/-- The page of the scenario when the upload response arrives: a fresh page
on which `report.xlsx` was dropped and submitted, and whose duplicate check
returned an empty file list. -/
def uploadingPage : Page :=
  submitAndCheck (CheckResult.loaded 200 (FilesValue.array []))
    (dropHandler [reportFile] (Page.fresh Storage.empty true))

/-- The page of the scenario after the response
`{data: [{id: "INC1", riskLevel: "高風險", ...}]}` with status 200 was handled;
the clock reads `10:00` and the text of a markup is taken to be the markup. -/
def uploadedPage : Page :=
  uploadOnload reportFile 200 (some { error := JsVal.undefined, data := some [rowINC1] })
    "10:00" id uploadingPage

/-! ## Theorems -/

/-! ### Duplicate check gates the upload -/

theorem uploadsSent_append (s : Page) (rs : List Request) :
    uploadsSent { s with requests := s.requests ++ rs } =
      uploadsSent s ++ rs.filterMap fun r =>
        match r with
        | Request.postUpload f => some f
        | Request.getFiles => none := by
  simp [uploadsSent, List.filterMap_append]

theorem uploadsSent_submitAndCheck (r : CheckResult) (s : Page) :
    uploadsSent (submitAndCheck r s) =
      uploadsSent s ++
        (match selectedFile s, r with
         | some f, CheckResult.loaded 200 files =>
           if files.includes f.name = some false then [f] else []
         | _, _ => []) := by
  unfold submitAndCheck submitHandler
  cases hsel : selectedFile s with
  | none => simp [uploadsSent]
  | some f =>
    cases r with
    | transportError => simp [checkHandler, uploadsSent, List.filterMap_append]
    | loaded status files =>
      by_cases hst : status = 200
      · subst hst
        rcases hinc : files.includes f.name with _ | b
        · simp [checkHandler, uploadsSent, List.filterMap_append, hinc]
        · cases b <;> simp [checkHandler, uploadsSent, List.filterMap_append, hinc]
      · simp [checkHandler, uploadsSent, List.filterMap_append, hst]

theorem includes_eq_false_iff (files : FilesValue) (name : String) :
    files.includes name = some false ↔
      (∃ items, files = FilesValue.array items ∧ JsVal.str name ∉ items) ∨
      (∃ t, files = FilesValue.text t ∧ ¬ name.data <:+: t.data) := by
  cases files with
  | array items => simp [FilesValue.includes]
  | text t => simp [FilesValue.includes]
  | notSearchable => simp [FilesValue.includes]

/-- C1: a submit posts to `/upload` if and only if a file is selected, the
`GET /files` check loads with status 200 and the returned `files` does not
contain the file's name (as an element when it is an array, as a substring
when it is a string; any other value makes the handler throw); then it posts
exactly the selected file, once.  For a response of the interface's type, a
list of strings, the condition is that the name is not in the list. -/
theorem upload_sent_iff (r : CheckResult) (s : Page) :
    (uploadsSent (submitAndCheck r s) ≠ uploadsSent s ↔
      ∃ f, selectedFile s = some f ∧
        ((∃ items, r = CheckResult.loaded 200 (FilesValue.array items) ∧
            JsVal.str f.name ∉ items) ∨
          (∃ t, r = CheckResult.loaded 200 (FilesValue.text t) ∧ ¬ f.name.data <:+: t.data))) ∧
    (∀ fs : List String, r = CheckResult.loaded 200 (FilesValue.array (fs.map JsVal.str)) →
      (uploadsSent (submitAndCheck r s) ≠ uploadsSent s ↔
        ∃ f, selectedFile s = some f ∧ f.name ∉ fs)) ∧
    (uploadsSent (submitAndCheck r s) = uploadsSent s ∨
      ∃ f, selectedFile s = some f ∧
        uploadsSent (submitAndCheck r s) = uploadsSent s ++ [f]) := by
  have key : (uploadsSent (submitAndCheck r s) ≠ uploadsSent s ↔
      ∃ f, selectedFile s = some f ∧
        ∃ files, r = CheckResult.loaded 200 files ∧ files.includes f.name = some false) ∧
      (uploadsSent (submitAndCheck r s) = uploadsSent s ∨
        ∃ f, selectedFile s = some f ∧
          uploadsSent (submitAndCheck r s) = uploadsSent s ++ [f]) := by
    rw [uploadsSent_submitAndCheck]
    cases hsel : selectedFile s with
    | none => simp
    | some f =>
      cases r with
      | transportError => simp
      | loaded status files =>
        by_cases hst : status = 200
        · subst hst
          by_cases hinc : files.includes f.name = some false
          · simp [hinc]
          · simp [hinc]
        · have : ∀ fv, ¬ CheckResult.loaded status files = CheckResult.loaded 200 fv := by
            intro fv h
            injection h with h1 _
            exact hst h1
          simp [this]
  refine ⟨?_, ?_, key.2⟩
  · rw [key.1]
    constructor
    · rintro ⟨f, hf, files, hr, hinc⟩
      refine ⟨f, hf, ?_⟩
      rcases (includes_eq_false_iff files f.name).1 hinc with ⟨items, rfl, h⟩ | ⟨t, rfl, h⟩
      · exact Or.inl ⟨items, hr, h⟩
      · exact Or.inr ⟨t, hr, h⟩
    · rintro ⟨f, hf, ⟨items, hr, h⟩ | ⟨t, hr, h⟩⟩
      · exact ⟨f, hf, _, hr, (includes_eq_false_iff _ _).2 (Or.inl ⟨items, rfl, h⟩)⟩
      · exact ⟨f, hf, _, hr, (includes_eq_false_iff _ _).2 (Or.inr ⟨t, rfl, h⟩)⟩
  · intro fs hr
    rw [key.1]
    constructor
    · rintro ⟨f, hf, files, hr2, hinc⟩
      refine ⟨f, hf, ?_⟩
      rw [hr] at hr2
      injection hr2 with _ h2
      subst h2
      simpa [FilesValue.includes] using hinc
    · rintro ⟨f, hf, h⟩
      exact ⟨f, hf, _, hr, by simpa [FilesValue.includes] using h⟩

/-- C1 at the scenario: `report.xlsx` dropped, the check returns the list
`["old.xlsx"]`, and `report.xlsx` is posted. -/
theorem upload_sent_iff_witness :
    uploadsSent
        (submitAndCheck
          (CheckResult.loaded 200 (FilesValue.array (["old.xlsx"].map JsVal.str)))
          (dropHandler [⟨"report.xlsx", "INC1"⟩] (Page.fresh Storage.empty true))) ≠
      uploadsSent (dropHandler [⟨"report.xlsx", "INC1"⟩] (Page.fresh Storage.empty true)) :=
  ((upload_sent_iff
      (CheckResult.loaded 200 (FilesValue.array (["old.xlsx"].map JsVal.str)))
      (dropHandler [⟨"report.xlsx", "INC1"⟩] (Page.fresh Storage.empty true))).2.1
    ["old.xlsx"] rfl).2 ⟨⟨"report.xlsx", "INC1"⟩, rfl, by decide⟩

/-! ### The summary counts -/

theorem summaryCounts_nil : summaryCounts [] = ⟨0, 0, 0, 0, 0⟩ := rfl

theorem summaryCounts_cons (r : Row) (L : List Row) :
    summaryCounts (r :: L) =
      { total := (summaryCounts L).total + 1
        high := (summaryCounts L).high + if r.riskLevel = JsVal.str "高風險" then 1 else 0
        medium := (summaryCounts L).medium + if r.riskLevel = JsVal.str "中風險" then 1 else 0
        low := (summaryCounts L).low + if r.riskLevel = JsVal.str "低風險" then 1 else 0
        ignore := (summaryCounts L).ignore + if r.riskLevel = JsVal.str "忽略" then 1 else 0 } := by
  simp only [summaryCounts, List.length_cons, List.filter_cons, beq_iff_eq]
  congr 1 <;> split <;> simp

theorem summaryCounts_append (L1 L2 : List Row) :
    summaryCounts (L1 ++ L2) =
      { total := (summaryCounts L1).total + (summaryCounts L2).total
        high := (summaryCounts L1).high + (summaryCounts L2).high
        medium := (summaryCounts L1).medium + (summaryCounts L2).medium
        low := (summaryCounts L1).low + (summaryCounts L2).low
        ignore := (summaryCounts L1).ignore + (summaryCounts L2).ignore } := by
  simp [summaryCounts, List.filter_append]

/-- The number of the four category tests a row passes: one for a known risk
level, none otherwise. -/
theorem category_hits (r : Row) :
    ((if r.riskLevel = JsVal.str "高風險" then 1 else 0) +
      (if r.riskLevel = JsVal.str "中風險" then 1 else 0) +
      (if r.riskLevel = JsVal.str "低風險" then 1 else 0) +
      (if r.riskLevel = JsVal.str "忽略" then 1 else 0) : Nat) =
      if r.riskLevel ∈ knownRiskLevels then 1 else 0 := by
  by_cases h1 : r.riskLevel = JsVal.str "高風險"
  · rw [h1]; decide
  · by_cases h2 : r.riskLevel = JsVal.str "中風險"
    · rw [h2]; decide
    · by_cases h3 : r.riskLevel = JsVal.str "低風險"
      · rw [h3]; decide
      · by_cases h4 : r.riskLevel = JsVal.str "忽略"
        · rw [h4]; decide
        · simp [knownRiskLevels, h1, h2, h3, h4]

theorem category_sum_cons (r : Row) (L : List Row) :
    (summaryCounts (r :: L)).high + (summaryCounts (r :: L)).medium +
        (summaryCounts (r :: L)).low + (summaryCounts (r :: L)).ignore =
      (summaryCounts L).high + (summaryCounts L).medium + (summaryCounts L).low +
        (summaryCounts L).ignore + if r.riskLevel ∈ knownRiskLevels then 1 else 0 := by
  rw [summaryCounts_cons, ← category_hits]
  simp only
  omega

/-- The rows that fall in no category are exactly the gap between the total
and the four counts. -/
theorem total_eq_sum_add_unknown (L : List Row) :
    (summaryCounts L).total =
      (summaryCounts L).high + (summaryCounts L).medium + (summaryCounts L).low +
        (summaryCounts L).ignore +
        L.countP (fun r => decide (r.riskLevel ∉ knownRiskLevels)) := by
  induction L with
  | nil => rfl
  | cons r L ih =>
    rw [category_sum_cons, List.countP_cons]
    have ht : (summaryCounts (r :: L)).total = (summaryCounts L).total + 1 := by
      rw [summaryCounts_cons]
    rw [ht, ih]
    by_cases h : r.riskLevel ∈ knownRiskLevels
    · simp [h]; omega
    · simp [h]; omega

/-- C2: `updateSummary` writes into the summary box the text that reports, as
total, the length of the list and, for each of the four categories, the number
of rows whose `riskLevel` is exactly that string; a row with any other
`riskLevel` raises the reported total by one and leaves the four reported
counts as they are; the one-row scenario is reported as total 1, high 1 and 0
for the rest. -/
theorem updateSummary_counts (L : List Row) (s : Page) :
    (updateSummary L s).summaryHTML =
      "\n        共 <strong>" ++ toString L.length ++ "</strong> 筆紀錄：<br>" ++
      "\n        🚨 高風險：<strong>" ++
        toString (L.countP fun r => decide (r.riskLevel = JsVal.str "高風險")) ++
        "</strong> 筆<br>" ++
      "\n        ⚠️ 中風險：<strong>" ++
        toString (L.countP fun r => decide (r.riskLevel = JsVal.str "中風險")) ++
        "</strong> 筆<br>" ++
      "\n        ✅ 低風險：<strong>" ++
        toString (L.countP fun r => decide (r.riskLevel = JsVal.str "低風險")) ++
        "</strong> 筆<br>" ++
      "\n        🟢 忽略：<strong>" ++
        toString (L.countP fun r => decide (r.riskLevel = JsVal.str "忽略")) ++
        "</strong> 筆" ++
      "\n    " ∧
    (∀ (r : Row) (before after : List Row), L = before ++ r :: after →
      r.riskLevel ∉ knownRiskLevels →
        L.length = (before ++ after).length + 1 ∧
        (∀ level ∈ knownRiskLevels,
          L.countP (fun r => decide (r.riskLevel = level)) =
            (before ++ after).countP (fun r => decide (r.riskLevel = level))) ∧
        (updateSummary L s).summaryHTML =
          summaryMarkup
            { total := (summaryCounts (before ++ after)).total + 1
              high := (summaryCounts (before ++ after)).high
              medium := (summaryCounts (before ++ after)).medium
              low := (summaryCounts (before ++ after)).low
              ignore := (summaryCounts (before ++ after)).ignore }) ∧
    (updateSummary [rowINC1] s).summaryHTML =
      "\n        共 <strong>1</strong> 筆紀錄：<br>" ++
      "\n        🚨 高風險：<strong>1</strong> 筆<br>" ++
      "\n        ⚠️ 中風險：<strong>0</strong> 筆<br>" ++
      "\n        ✅ 低風險：<strong>0</strong> 筆<br>" ++
      "\n        🟢 忽略：<strong>0</strong> 筆" ++
      "\n    " := by
  have hcount : ∀ (M : List Row) (level : String),
      (M.filter (fun d => d.riskLevel == JsVal.str level)).length =
        M.countP (fun r => decide (r.riskLevel = JsVal.str level)) := by
    intro M level
    rw [List.countP_eq_length_filter]
    congr 2
  refine ⟨?_, ?_, ?_⟩
  · simp only [updateSummary, summaryMarkup, summaryCounts, hcount]
  · intro r before after hL hr
    subst hL
    have h1 : r.riskLevel ≠ JsVal.str "高風險" := fun h => hr (by rw [h]; decide)
    have h2 : r.riskLevel ≠ JsVal.str "中風險" := fun h => hr (by rw [h]; decide)
    have h3 : r.riskLevel ≠ JsVal.str "低風險" := fun h => hr (by rw [h]; decide)
    have h4 : r.riskLevel ≠ JsVal.str "忽略" := fun h => hr (by rw [h]; decide)
    refine ⟨by simp; omega, ?_, ?_⟩
    · intro level hlevel
      have hne : r.riskLevel ≠ level := fun h => hr (h ▸ hlevel)
      simp [List.countP_append, List.countP_cons, hne]
    · show summaryMarkup (summaryCounts (before ++ r :: after)) = _
      congr 1
      rw [summaryCounts_append, summaryCounts_append, summaryCounts_cons]
      simp only [h1, h2, h3, h4, if_false, Nat.add_zero, SummaryCounts.mk.injEq, and_self,
        and_true]
      omega
  · rfl

/-- C2 at the list of one row with an unrecognised level between two known
rows: reported as total 3 and high 2. -/
theorem updateSummary_counts_witness :
    (updateSummary [rowINC1, { rowINC1 with riskLevel := JsVal.str "未知" }, rowINC1]
        (Page.fresh Storage.empty true)).summaryHTML =
      summaryMarkup ⟨3, 2, 0, 0, 0⟩ ∧
    [rowINC1, { rowINC1 with riskLevel := JsVal.str "未知" }, rowINC1].length =
      ([rowINC1] ++ [rowINC1]).length + 1 :=
  ⟨((updateSummary_counts
      [rowINC1, { rowINC1 with riskLevel := JsVal.str "未知" }, rowINC1]
      (Page.fresh Storage.empty true)).2.1
      { rowINC1 with riskLevel := JsVal.str "未知" } [rowINC1] [rowINC1] rfl
      (by decide)).2.2.trans rfl,
   ((updateSummary_counts
      [rowINC1, { rowINC1 with riskLevel := JsVal.str "未知" }, rowINC1]
      (Page.fresh Storage.empty true)).2.1
      { rowINC1 with riskLevel := JsVal.str "未知" } [rowINC1] [rowINC1] rfl
      (by decide)).1⟩

/-- C3: the total equals the sum of the four counts exactly when every row has
one of the four known risk levels; with any other row the total is strictly
greater, and it is never smaller. -/
theorem total_eq_sum_iff (L : List Row) :
    ((summaryCounts L).total =
        (summaryCounts L).high + (summaryCounts L).medium + (summaryCounts L).low +
          (summaryCounts L).ignore ↔
      ∀ r ∈ L, r.riskLevel ∈ knownRiskLevels) ∧
    ((∃ r ∈ L, r.riskLevel ∉ knownRiskLevels) →
      (summaryCounts L).high + (summaryCounts L).medium + (summaryCounts L).low +
          (summaryCounts L).ignore < (summaryCounts L).total) ∧
    (summaryCounts L).high + (summaryCounts L).medium + (summaryCounts L).low +
        (summaryCounts L).ignore ≤ (summaryCounts L).total := by
  have key := total_eq_sum_add_unknown L
  refine ⟨⟨fun h r hr => ?_, fun h => ?_⟩, fun ⟨r, hr, hk⟩ => ?_, by omega⟩
  · by_contra hk
    have : 0 < L.countP (fun r => decide (r.riskLevel ∉ knownRiskLevels)) :=
      List.countP_pos_iff.2 ⟨r, hr, by simpa using hk⟩
    omega
  · have : L.countP (fun r => decide (r.riskLevel ∉ knownRiskLevels)) = 0 := by
      rw [List.countP_eq_zero]
      intro r hr
      simpa using h r hr
    omega
  · have : 0 < L.countP (fun r => decide (r.riskLevel ∉ knownRiskLevels)) :=
      List.countP_pos_iff.2 ⟨r, hr, by simpa using hk⟩
    omega

/-- C3 at a list with one known and one unrecognised row: total 2, sum 1. -/
theorem total_eq_sum_iff_witness :
    (summaryCounts [rowINC1, { rowINC1 with riskLevel := JsVal.null }]).high +
      (summaryCounts [rowINC1, { rowINC1 with riskLevel := JsVal.null }]).medium +
      (summaryCounts [rowINC1, { rowINC1 with riskLevel := JsVal.null }]).low +
      (summaryCounts [rowINC1, { rowINC1 with riskLevel := JsVal.null }]).ignore <
    (summaryCounts [rowINC1, { rowINC1 with riskLevel := JsVal.null }]).total :=
  (total_eq_sum_iff [rowINC1, { rowINC1 with riskLevel := JsVal.null }]).2.1
    ⟨{ rowINC1 with riskLevel := JsVal.null }, by decide, by decide⟩

/-! ### The history list -/

theorem addHistoryItems_nil (s : Page) : addHistoryItems [] s = s := rfl

theorem addHistoryItems_cons (c : HistoryCall) (calls : List HistoryCall) (s : Page) :
    addHistoryItems (c :: calls) s =
      addHistoryItems calls (addHistoryItem c.fileName c.summaryText c.time s) := rfl

theorem addHistoryItems_stored (calls : List HistoryCall) (s : Page) :
    (addHistoryItems calls s).storage.historyData.getD [] =
      (calls.map HistoryCall.record).reverse ++ s.storage.historyData.getD [] := by
  induction calls generalizing s with
  | nil => simp [addHistoryItems_nil]
  | cons c calls ih =>
    rw [addHistoryItems_cons, ih]
    simp [addHistoryItem, HistoryCall.record]

theorem addHistoryItems_visible (calls : List HistoryCall) (s : Page) :
    (addHistoryItems calls s).historyItems =
      (calls.map fun c => historyItemMarkup c.fileName c.time c.summaryText).reverse ++
        s.historyItems := by
  induction calls generalizing s with
  | nil => simp [addHistoryItems_nil]
  | cons c calls ih =>
    rw [addHistoryItems_cons, ih]
    simp [addHistoryItem]

/-- C4: `addHistoryItem` replaces the persisted list `S` by the new record
followed by `S` unchanged, and puts the new entry on top of the visible list;
so from an empty store, `N` calls leave a persisted list of length `N` whose
element 0 is the record of the most recent call. -/
theorem addHistoryItem_prepends (S : List UploadRecord) (fileName summaryText time : String)
    (s : Page) (hS : s.storage.historyData = some S) :
    (addHistoryItem fileName summaryText time s).storage.historyData =
      some ({ file := fileName, time := time, summary := summaryText } :: S) ∧
    (addHistoryItem fileName summaryText time s).historyItems =
      historyItemMarkup fileName time summaryText :: s.historyItems ∧
    (∀ (calls : List HistoryCall) (s0 : Page), s0.storage.historyData.getD [] = [] →
      ((addHistoryItems calls s0).storage.historyData.getD []).length = calls.length ∧
      ((addHistoryItems calls s0).storage.historyData.getD []).head? =
        calls.getLast?.map HistoryCall.record ∧
      (addHistoryItems calls s0).storage.historyData.getD [] =
        (calls.map HistoryCall.record).reverse) := by
  refine ⟨by simp [addHistoryItem, hS], rfl, ?_⟩
  intro calls s0 h0
  rw [addHistoryItems_stored, h0, List.append_nil]
  refine ⟨by simp, ?_, rfl⟩
  rw [List.head?_reverse, List.getLast?_map]

/-- C4 at a store holding one record, and at two calls on an empty store. -/
theorem addHistoryItem_prepends_witness :
    (addHistoryItem "b.xlsx" "two" "10:01"
        (Page.fresh { Storage.empty with historyData := some [⟨"a.xlsx", "10:00", "one"⟩] }
          true)).storage.historyData =
      some [⟨"b.xlsx", "10:01", "two"⟩, ⟨"a.xlsx", "10:00", "one"⟩] ∧
    (addHistoryItems [⟨"a.xlsx", "one", "10:00"⟩, ⟨"b.xlsx", "two", "10:01"⟩]
        (Page.fresh Storage.empty true)).storage.historyData.getD [] =
      [⟨"b.xlsx", "10:01", "two"⟩, ⟨"a.xlsx", "10:00", "one"⟩] :=
  ⟨(addHistoryItem_prepends [⟨"a.xlsx", "10:00", "one"⟩] "b.xlsx" "two" "10:01"
      (Page.fresh { Storage.empty with historyData := some [⟨"a.xlsx", "10:00", "one"⟩] } true)
      rfl).1,
   ((addHistoryItem_prepends [⟨"a.xlsx", "10:00", "one"⟩] "b.xlsx" "two" "10:01"
      (Page.fresh { Storage.empty with historyData := some [⟨"a.xlsx", "10:00", "one"⟩] } true)
      rfl).2.2 [⟨"a.xlsx", "one", "10:00"⟩, ⟨"b.xlsx", "two", "10:01"⟩]
      (Page.fresh Storage.empty true) rfl).2.2⟩

/-! ### The result table and the preview table -/

theorem foldl_append_init (l : List String) (acc : String) :
    l.foldl (fun r x => r ++ x) acc = acc ++ l.foldl (fun r x => r ++ x) "" := by
  induction l generalizing acc with
  | nil => simp
  | cons a l ih =>
    simp only [List.foldl_cons]
    rw [ih (acc ++ a), ih ("" ++ a), String.append_assoc, String.empty_append]

theorem join_cons_eq (a : String) (l : List String) :
    String.join (a :: l) = a ++ String.join l := by
  simp only [String.join, List.foldl_cons]
  rw [foldl_append_init, String.empty_append]

theorem join_nil_eq : String.join [] = "" := rfl

theorem foldl_rows_eq_join {α : Type} (f : α → String) (l : List α) (init : String) :
    l.foldl (fun html item => html ++ f item) init = init ++ String.join (l.map f) := by
  induction l generalizing init with
  | nil => simp [String.join]
  | cons a l ih =>
    simp only [List.foldl_cons, List.map_cons]
    rw [ih, join_cons_eq, String.append_assoc]

theorem orElse_toStr (v : JsVal) (d : String) : (v.orElse d).toStr = textOr v d := by
  unfold JsVal.orElse textOr
  split <;> rfl

theorem tableRow_eq (item : Row) : tableRow item = rowMarkup tableLayout (rowCells item) := by
  simp only [tableRow, rowMarkup, tableLayout, rowCells, riskBadge, orElse_toStr, List.map_cons,
    List.map_nil, join_cons_eq, join_nil_eq, String.append_assoc, String.append_empty]

theorem previewRow_eq (item : Row) :
    previewRow item = rowMarkup previewLayout (rowCells item) := by
  simp only [previewRow, rowMarkup, previewLayout, rowCells, riskBadge, orElse_toStr,
    List.map_cons, List.map_nil, join_cons_eq, join_nil_eq, String.append_assoc,
    String.append_empty]

/-! ### Reading table markup back -/

theorem cutAt_cons (delim : List Char) (c : Char) (cs : List Char) :
    cutAt delim (c :: cs) =
      if delim.isPrefixOf (c :: cs) then some ([], (c :: cs).drop delim.length)
      else (cutAt delim cs).map fun p => (c :: p.1, p.2) := by
  simp [cutAt]

theorem cutAt_eq_some {delim s a b : List Char} (h : cutAt delim s = some (a, b)) :
    s = a ++ delim ++ b := by
  induction s generalizing a with
  | nil => simp [cutAt] at h
  | cons c cs ih =>
    rw [cutAt_cons] at h
    by_cases hp : delim.isPrefixOf (c :: cs) = true
    · rw [if_pos hp] at h
      simp only [Option.some.injEq, Prod.mk.injEq] at h
      obtain ⟨rfl, rfl⟩ := h
      obtain ⟨t, ht⟩ := List.isPrefixOf_iff_prefix.1 hp
      rw [← ht]
      simp
    · rw [if_neg hp] at h
      rcases hcs : cutAt delim cs with _ | ⟨a', b'⟩
      · simp [hcs] at h
      · simp only [hcs, Option.map_some', Option.some.injEq, Prod.mk.injEq] at h
        obtain ⟨rfl, rfl⟩ := h
        rw [ih hcs]
        simp

theorem cutAt_append {delim x a b : List Char} (h : cutAt delim x = some (a, b))
    (rest : List Char) : cutAt delim (x ++ rest) = some (a, b ++ rest) := by
  induction x generalizing a with
  | nil => simp [cutAt] at h
  | cons c cs ih =>
    have hx := cutAt_eq_some h
    rw [cutAt_cons] at h
    rw [List.cons_append, cutAt_cons]
    by_cases hp : delim.isPrefixOf (c :: cs) = true
    · rw [if_pos hp] at h
      simp only [Option.some.injEq, Prod.mk.injEq] at h
      obtain ⟨rfl, rfl⟩ := h
      have hpre : delim <+: c :: cs := List.isPrefixOf_iff_prefix.1 hp
      have hp' : delim.isPrefixOf (c :: (cs ++ rest)) = true :=
        List.isPrefixOf_iff_prefix.2
          (hpre.trans (by rw [← List.cons_append]; exact List.prefix_append _ _))
      rw [if_pos hp', ← List.cons_append, List.drop_append_of_le_length hpre.length_le]
    · rw [if_neg hp] at h
      rcases hcs : cutAt delim cs with _ | ⟨a', b'⟩
      · simp [hcs] at h
      · simp only [hcs, Option.map_some', Option.some.injEq, Prod.mk.injEq] at h
        obtain ⟨rfl, rfl⟩ := h
        have hlen : delim.length ≤ (c :: cs).length := by
          rw [cutAt_eq_some hcs]
          simp
          omega
        have hp' : ¬ delim.isPrefixOf (c :: (cs ++ rest)) = true := by
          intro hq
          have hq' : delim <+: (c :: cs) ++ rest := List.isPrefixOf_iff_prefix.1 hq
          exact hp (List.isPrefixOf_iff_prefix.2
            (List.prefix_of_prefix_length_le hq' (List.prefix_append _ _) hlen))
        rw [if_neg hp', ih hcs]
        rfl

theorem cutAt_self (delim rest : List Char) (h : delim ≠ []) :
    cutAt delim (delim ++ rest) = some ([], rest) := by
  have h0 : cutAt delim delim = some ([], []) := by
    cases delim with
    | nil => exact absurd rfl h
    | cons d ds =>
      rw [cutAt_cons, if_pos (List.isPrefixOf_iff_prefix.2 (List.prefix_refl _))]
      simp
  simpa using cutAt_append h0 rest

theorem noStart_cons (delim : List Char) (c : Char) (cs : List Char) :
    noStart delim (c :: cs) =
      (!(delim.isPrefixOf (c :: cs) || (c :: cs).isPrefixOf delim) && noStart delim cs) := by
  simp [noStart]

theorem not_isPrefixOf_append {delim x : List Char}
    (h : (delim.isPrefixOf x || x.isPrefixOf delim) = false) (s : List Char) :
    (delim.isPrefixOf (x ++ s) || (x ++ s).isPrefixOf delim) = false := by
  rw [Bool.or_eq_false_iff] at h ⊢
  obtain ⟨h1, h2⟩ := h
  constructor
  · by_contra hq
    rw [Bool.not_eq_false] at hq
    have hq' : delim <+: x ++ s := List.isPrefixOf_iff_prefix.1 hq
    rcases List.prefix_or_prefix_of_prefix hq' (List.prefix_append x s) with hd | hd
    · rw [List.isPrefixOf_iff_prefix.2 hd] at h1
      exact absurd h1 (by decide)
    · rw [List.isPrefixOf_iff_prefix.2 hd] at h2
      exact absurd h2 (by decide)
  · by_contra hq
    rw [Bool.not_eq_false] at hq
    have hq' : x ++ s <+: delim := List.isPrefixOf_iff_prefix.1 hq
    rw [List.isPrefixOf_iff_prefix.2 ((List.prefix_append x s).trans hq')] at h2
    exact absurd h2 (by decide)

theorem cutAt_skip {delim x : List Char} (h : noStart delim x = true) (s : List Char) :
    cutAt delim (x ++ s) = (cutAt delim s).map fun p => (x ++ p.1, p.2) := by
  induction x with
  | nil => simp
  | cons c cs ih =>
    rw [noStart_cons, Bool.and_eq_true, Bool.not_eq_true'] at h
    have hno := (Bool.or_eq_false_iff.1 (not_isPrefixOf_append h.1 s)).1
    rw [List.cons_append, cutAt_cons, ← List.cons_append, hno, ih h.2]
    simp only [Bool.false_eq_true, if_false, Option.map_map]
    rfl

theorem cutAt_skip_none {delim x : List Char} (h : noStart delim x = true) :
    cutAt delim x = none := by
  have := cutAt_skip h []
  simpa [cutAt] using this

theorem noStart_append {delim x y : List Char} (hx : noStart delim x = true)
    (hy : noStart delim y = true) : noStart delim (x ++ y) = true := by
  induction x with
  | nil => simpa using hy
  | cons c cs ih =>
    rw [noStart_cons, Bool.and_eq_true, Bool.not_eq_true'] at hx
    rw [List.cons_append, noStart_cons, Bool.and_eq_true, Bool.not_eq_true']
    exact ⟨by rw [← List.cons_append]; exact not_isPrefixOf_append hx.1 y, ih hx.2⟩

theorem noStart_of_clean (ds : List Char) {x : List Char} (h : '<' ∉ x) :
    noStart ('<' :: ds) x = true := by
  induction x with
  | nil => rfl
  | cons c cs ih =>
    have hc : c ≠ '<' := fun e => h (by simp [e])
    have hcs : '<' ∉ cs := fun e => h (by simp [e])
    rw [noStart_cons, ih hcs]
    simp [List.isPrefixOf, hc, Ne.symm hc]

theorem noStart_mono {short delim : List Char} (hsd : short <+: delim) {x : List Char}
    (h : noStart short x = true) : noStart delim x = true := by
  induction x with
  | nil => rfl
  | cons c cs ih =>
    rw [noStart_cons, Bool.and_eq_true, Bool.not_eq_true'] at h
    rw [noStart_cons, Bool.and_eq_true, Bool.not_eq_true']
    refine ⟨?_, ih h.2⟩
    obtain ⟨h1, h2⟩ := Bool.or_eq_false_iff.1 h.1
    rw [Bool.or_eq_false_iff]
    constructor
    · by_contra hq
      rw [Bool.not_eq_false] at hq
      have hq' : delim <+: c :: cs := List.isPrefixOf_iff_prefix.1 hq
      rw [List.isPrefixOf_iff_prefix.2 (hsd.trans hq')] at h1
      exact absurd h1 (by decide)
    · by_contra hq
      rw [Bool.not_eq_false] at hq
      have hq' : c :: cs <+: delim := List.isPrefixOf_iff_prefix.1 hq
      rcases List.prefix_or_prefix_of_prefix hsd hq' with hd | hd
      · rw [List.isPrefixOf_iff_prefix.2 hd] at h1
        exact absurd h1 (by decide)
      · rw [List.isPrefixOf_iff_prefix.2 hd] at h2
        exact absurd h2 (by decide)

theorem join_data (l : List String) : (String.join l).data = (l.map String.data).flatten := by
  induction l with
  | nil => rfl
  | cons a l ih => rw [join_cons_eq, String.data_append, ih]; rfl

theorem rowMarkup_data (l : RowLayout) (cells : List String) :
    (rowMarkup l cells).data = rowChars l cells := by
  simp only [rowMarkup, rowChars, cellChars, String.data_append, join_data, List.map_map]
  rfl

/-- What `RowLayout.readable` gives, as equations. -/
theorem readable_facts {l : RowLayout} (hl : l.readable = true) :
    (∃ w, cutAt "<tr>".data l.trOpen.data = some (w, [])) ∧
    (∃ w, cutAt "<td>".data l.tdOpen.data = some (w, [])) ∧
    l.tdClose.data = "</td>".data ∧
    noStart "</tr>".data l.tdOpen.data = true ∧
    noStart "</tbody>".data l.trOpen.data = true ∧
    noStart "</tbody>".data l.tdOpen.data = true ∧
    noStart "</tbody>".data l.trClose.data = true ∧
    (∃ w1 w2, cutAt "</tr>".data l.trClose.data = some (w1, w2) ∧
      noStart "<td>".data w1 = true ∧ noStart "<tr>".data w2 = true) := by
  simp only [RowLayout.readable, Bool.and_eq_true, beq_iff_eq] at hl
  obtain ⟨⟨⟨⟨⟨⟨⟨h1, h2⟩, h3⟩, h4⟩, h5⟩, h6⟩, h7⟩, h8⟩ := hl
  refine ⟨?_, ?_, h3, h4, h5, h6, h7, ?_⟩
  · rcases hc : cutAt "<tr>".data l.trOpen.data with _ | ⟨a, b⟩
    · simp [hc] at h1
    · simp only [hc, Option.map_some', Option.some.injEq] at h1
      exact ⟨a, by rw [h1]⟩
  · rcases hc : cutAt "<td>".data l.tdOpen.data with _ | ⟨a, b⟩
    · simp [hc] at h2
    · simp only [hc, Option.map_some', Option.some.injEq] at h2
      exact ⟨a, by rw [h2]⟩
  · rcases hc : cutAt "</tr>".data l.trClose.data with _ | ⟨a, b⟩
    · simp [hc] at h8
    · simp only [hc, Bool.and_eq_true] at h8
      exact ⟨a, b, rfl, h8.1, h8.2⟩

theorem readCells_cells {l : RowLayout} (hl : l.readable = true) (cells : List String)
    (hc : ∀ c ∈ cells, noStart "</t".data c.data = true) (w1 : List Char)
    (hw1 : noStart "<td>".data w1 = true) (fuel : Nat) (hf : cells.length ≤ fuel) :
    readCells fuel ((cells.map (cellChars l)).flatten ++ w1) = cells.map String.data := by
  obtain ⟨-, ⟨wd, hd⟩, hclose, -⟩ := readable_facts hl
  induction cells generalizing fuel with
  | nil =>
    cases fuel with
    | zero => rfl
    | succ f => simp [readCells, cutAt_skip_none hw1]
  | cons c cs ih =>
    cases fuel with
    | zero => simp at hf
    | succ f =>
      have hcell : noStart "</td>".data c.data = true :=
        noStart_mono (by decide) (hc c (List.mem_cons_self _ _))
      have e1 : (List.map (cellChars l) (c :: cs)).flatten ++ w1 =
          l.tdOpen.data ++ (c.data ++ ("</td>".data ++ ((cs.map (cellChars l)).flatten ++ w1))) := by
        simp [cellChars, hclose, List.append_assoc]
      have e2 := cutAt_append hd (c.data ++ ("</td>".data ++ ((cs.map (cellChars l)).flatten ++ w1)))
      have e3 : cutAt "</td>".data
          (c.data ++ ("</td>".data ++ ((cs.map (cellChars l)).flatten ++ w1))) =
          some (c.data, (cs.map (cellChars l)).flatten ++ w1) := by
        rw [cutAt_skip hcell, cutAt_self _ _ (by decide)]
        simp
      rw [e1, readCells, e2]
      simp only [List.nil_append, e3]
      rw [ih (fun c' h' => hc c' (List.mem_cons_of_mem _ h')) f (by simpa using hf)]
      rfl

theorem noStart_cells {l : RowLayout} (delim : List Char) (hopen : noStart delim l.tdOpen.data = true)
    (hclose : noStart delim l.tdClose.data = true) (cells : List String)
    (hc : ∀ c ∈ cells, noStart delim c.data = true) :
    noStart delim (cells.map (cellChars l)).flatten = true := by
  induction cells with
  | nil => rfl
  | cons c cs ih =>
    rw [List.map_cons, List.flatten_cons]
    exact noStart_append
      (noStart_append (noStart_append hopen (hc c (List.mem_cons_self _ _))) hclose)
      (ih fun c' h' => hc c' (List.mem_cons_of_mem _ h'))

theorem length_le_flatten (L : List (List Char)) (h : ∀ x ∈ L, 1 ≤ x.length) :
    L.length ≤ L.flatten.length := by
  induction L with
  | nil => simp
  | cons a L ih =>
    have ha := h a (List.mem_cons_self _ _)
    have := ih fun x hx => h x (List.mem_cons_of_mem _ hx)
    simp only [List.length_cons, List.flatten_cons, List.length_append]
    omega

theorem readRows_skip {w : List Char} (hw : noStart "<tr>".data w = true) (fuel : Nat)
    (s : List Char) : readRows fuel (w ++ s) = readRows fuel s := by
  cases fuel with
  | zero => rfl
  | succ f =>
    simp only [readRows]
    rw [cutAt_skip hw]
    rcases cutAt "<tr>".data s with _ | ⟨a, b⟩ <;> rfl

theorem readRows_rows {l : RowLayout} (hl : l.readable = true) (rows : List (List String))
    (hc : ∀ row ∈ rows, ∀ c ∈ row, noStart "</t".data c.data = true) (tail : List Char)
    (htail : noStart "<tr>".data tail = true) (fuel : Nat) (hf : rows.length ≤ fuel) :
    readRows fuel ((rows.map (rowChars l)).flatten ++ tail) =
      rows.map fun row => row.map String.data := by
  obtain ⟨⟨wr, hr⟩, -, hclose, hopen, -, -, -, w1, w2, htr, hw1, hw2⟩ := readable_facts hl
  induction rows generalizing fuel with
  | nil =>
    cases fuel with
    | zero => rfl
    | succ f => simp [readRows, cutAt_skip_none htail]
  | cons row rs ih =>
    cases fuel with
    | zero => simp at hf
    | succ f =>
      have hrow := hc row (List.mem_cons_self _ _)
      have hcells : noStart "</tr>".data (row.map (cellChars l)).flatten = true :=
        noStart_cells _ hopen (by rw [hclose]; decide) row
          (fun c h => noStart_mono (by decide) (hrow c h))
      have e1 : (List.map (rowChars l) (row :: rs)).flatten ++ tail =
          l.trOpen.data ++ ((row.map (cellChars l)).flatten ++
            (l.trClose.data ++ ((rs.map (rowChars l)).flatten ++ tail))) := by
        simp [rowChars, List.append_assoc]
      have e2 := cutAt_append hr ((row.map (cellChars l)).flatten ++
            (l.trClose.data ++ ((rs.map (rowChars l)).flatten ++ tail)))
      have e3 : cutAt "</tr>".data ((row.map (cellChars l)).flatten ++
            (l.trClose.data ++ ((rs.map (rowChars l)).flatten ++ tail))) =
          some ((row.map (cellChars l)).flatten ++ w1,
            w2 ++ ((rs.map (rowChars l)).flatten ++ tail)) := by
        rw [cutAt_skip hcells, cutAt_append htr]
        rfl
      have hlen : row.length ≤ ((row.map (cellChars l)).flatten ++ w1).length := by
        have := length_le_flatten (row.map (cellChars l)) (by
          intro x hx
          obtain ⟨c, -, rfl⟩ := List.mem_map.1 hx
          have h5 : l.tdClose.data.length = 5 := by rw [hclose]; rfl
          simp only [cellChars, List.length_append]
          omega)
        simp only [List.length_map] at this
        simp only [List.length_append]
        omega
      rw [e1, readRows, e2]
      simp only [List.nil_append, e3]
      rw [readCells_cells hl row hrow w1 hw1 _ hlen, readRows_skip hw2,
        ih (fun r h => hc r (List.mem_cons_of_mem _ h)) f (by simpa using hf)]
      rfl

theorem noStart_rows {l : RowLayout} (hl : l.readable = true) (rows : List (List String))
    (hc : ∀ row ∈ rows, ∀ c ∈ row, noStart "</t".data c.data = true) :
    noStart "</tbody>".data (rows.map (rowChars l)).flatten = true := by
  obtain ⟨-, -, hclose, -, h1, h2, h3, -⟩ := readable_facts hl
  induction rows with
  | nil => rfl
  | cons row rs ih =>
    rw [List.map_cons, List.flatten_cons]
    refine noStart_append (noStart_append (noStart_append h1 ?_) h3)
      (ih fun r h => hc r (List.mem_cons_of_mem _ h))
    exact noStart_cells _ h2 (by rw [hclose]; decide) row
      (fun c h => noStart_mono (by decide) (hc row (List.mem_cons_self _ _) c h))

/-- A table written as a head holding `<tbody>`, rows in a readable layout whose
cells start no closing tag of the table, and a foot holding `</tbody>`, reads
back as exactly those rows and cells. -/
theorem tableBodyRows_shell {l : RowLayout} (hl : l.readable = true) (head foot : String)
    {h0 w0 wE rest : List Char} (hhead : cutAt "<tbody>".data head.data = some (h0, w0))
    (hw0 : noStart "<tr>".data w0 = true) (hw0b : noStart "</tbody>".data w0 = true)
    (hfoot : cutAt "</tbody>".data foot.data = some (wE, rest))
    (hwE : noStart "<tr>".data wE = true) (rows : List (List String))
    (hc : ∀ row ∈ rows, ∀ c ∈ row, noStart "</t".data c.data = true) :
    tableBodyRows (head ++ String.join (rows.map (rowMarkup l)) ++ foot) = rows := by
  have hmap : (rows.map (rowMarkup l)).map String.data = rows.map (rowChars l) := by
    rw [List.map_map]
    apply List.map_congr_left
    intro row _
    exact rowMarkup_data l row
  have hdata : (head ++ String.join (rows.map (rowMarkup l)) ++ foot).data =
      head.data ++ ((rows.map (rowChars l)).flatten ++ foot.data) := by
    simp only [String.data_append, join_data, hmap, List.append_assoc]
  have e1 : cutAt "<tbody>".data
      (head ++ String.join (rows.map (rowMarkup l)) ++ foot).data =
      some (h0, w0 ++ ((rows.map (rowChars l)).flatten ++ foot.data)) := by
    rw [hdata]
    exact cutAt_append hhead ((rows.map (rowChars l)).flatten ++ foot.data)
  have e2 : cutAt "</tbody>".data (w0 ++ ((rows.map (rowChars l)).flatten ++ foot.data)) =
      some (w0 ++ ((rows.map (rowChars l)).flatten ++ wE), rest) := by
    rw [cutAt_skip hw0b, cutAt_skip (noStart_rows hl rows hc), hfoot]
    rfl
  have hlen : rows.length ≤ (w0 ++ ((rows.map (rowChars l)).flatten ++ wE)).length := by
    obtain ⟨-, -, -, -, -, -, -, w1, w2, htr, -⟩ := readable_facts hl
    have := length_le_flatten (rows.map (rowChars l)) (by
      intro x hx
      obtain ⟨r, -, rfl⟩ := List.mem_map.1 hx
      have hlen : l.trClose.data.length = (w1 ++ "</tr>".data ++ w2).length :=
        congrArg List.length (cutAt_eq_some htr)
      have h5 : (w1 ++ "</tr>".data ++ w2).length = w1.length + 5 + w2.length := by
        rw [List.length_append, List.length_append]; rfl
      simp only [rowChars, List.length_append]
      omega)
    simp only [List.length_map] at this
    simp only [List.length_append]
    omega
  unfold tableBodyRows
  rw [e1]
  simp only [e2]
  rw [readRows_skip hw0, readRows_rows hl rows hc wE hwE _ hlen]
  have hid : (String.mk ∘ String.data) = id := funext fun _ => rfl
  simp [List.map_map, Function.comp_def, hid]

theorem tableHtml_eq (D : List Row) :
    tableHtml D =
      tableHead ++ String.join ((D.map rowCells).map (rowMarkup tableLayout)) ++ tableFoot := by
  have h : tableRow = fun item => rowMarkup tableLayout (rowCells item) := funext tableRow_eq
  simp only [tableHtml, h, List.map_map]
  rfl

theorem previewHtml_eq (D : List Row) :
    previewHtml D =
      previewHead ++ String.join ((D.map rowCells).map (rowMarkup previewLayout)) ++
        "</tbody></table>" := by
  have h : previewRow = fun item => rowMarkup previewLayout (rowCells item) :=
    funext previewRow_eq
  simp only [previewHtml, foldl_rows_eq_join, h, previewHead, List.map_map]
  rfl

theorem cutAt_snd {delim x w : List Char} (h : (cutAt delim x).map Prod.snd = some w) :
    ∃ a, cutAt delim x = some (a, w) := by
  rcases hc : cutAt delim x with _ | ⟨a, b⟩
  · simp [hc] at h
  · simp only [hc, Option.map_some', Option.some.injEq] at h
    exact ⟨a, by rw [h]⟩

theorem cutAt_fst {delim x w : List Char} (h : (cutAt delim x).map Prod.fst = some w) :
    ∃ b, cutAt delim x = some (w, b) := by
  rcases hc : cutAt delim x with _ | ⟨a, b⟩
  · simp [hc] at h
  · simp only [hc, Option.map_some', Option.some.injEq] at h
    exact ⟨b, by rw [h]⟩

/-- The cells of a row whose inserted texts hold no `<` start no closing tag
of the table. -/
theorem rowCells_noStart (item : Row) (h : ∀ t ∈ rowTexts item, '<' ∉ t.data) :
    ∀ c ∈ rowCells item, noStart "</t".data c.data = true := by
  have ht : ∀ t ∈ rowTexts item, noStart "</t".data t.data = true :=
    fun t m => noStart_of_clean ['/', 't'] (h t m)
  simp only [rowTexts, List.mem_cons, List.mem_singleton, List.not_mem_nil, or_false,
    forall_eq_or_imp, forall_eq] at ht
  obtain ⟨h0, h1, h2, h3, h4, h5, h6, h7⟩ := ht
  have hbadge : noStart "</t".data (riskBadge item).data = true := by
    simp only [riskBadge, String.data_append]
    exact noStart_append (noStart_append (noStart_append (noStart_append (by decide) h5)
      (by decide)) h5) (by decide)
  simp only [rowCells, List.mem_cons, List.mem_singleton, List.not_mem_nil, or_false,
    forall_eq_or_imp, forall_eq]
  exact ⟨h0, h1, h2, h3, h4, hbadge, h6, h7⟩

set_option maxRecDepth 100000 in
theorem tableLayout_readable : tableLayout.readable = true := by decide

set_option maxRecDepth 100000 in
theorem previewLayout_readable : previewLayout.readable = true := by decide

set_option maxRecDepth 100000 in
theorem tableHead_cut :
    (cutAt "<tbody>".data tableHead.data).map Prod.snd = some "\n                ".data := by
  decide

set_option maxRecDepth 100000 in
theorem tableFoot_cut :
    (cutAt "</tbody>".data tableFoot.data).map Prod.fst = some "\n              ".data := by
  decide

set_option maxRecDepth 100000 in
theorem previewHead_cut :
    (cutAt "<tbody>".data previewHead.data).map Prod.snd = some [] := by
  decide

theorem tableBodyRows_tableHtml (rows : List Row)
    (hclean : ∀ item ∈ rows, ∀ t ∈ rowTexts item, '<' ∉ t.data) :
    tableBodyRows (tableHtml rows) = rows.map rowCells := by
  obtain ⟨h0, hhead⟩ := cutAt_snd tableHead_cut
  obtain ⟨rest, hfoot⟩ := cutAt_fst tableFoot_cut
  rw [tableHtml_eq]
  refine tableBodyRows_shell tableLayout_readable tableHead tableFoot hhead (by decide)
    (by decide) hfoot (by decide) (rows.map rowCells) ?_
  intro row hrow
  obtain ⟨item, hitem, rfl⟩ := List.mem_map.1 hrow
  exact rowCells_noStart item (hclean item hitem)

theorem tableBodyRows_previewHtml (rows : List Row)
    (hclean : ∀ item ∈ rows, ∀ t ∈ rowTexts item, '<' ∉ t.data) :
    tableBodyRows (previewHtml rows) = rows.map rowCells := by
  obtain ⟨h0, hhead⟩ := cutAt_snd previewHead_cut
  have hfoot : cutAt "</tbody>".data "</tbody></table>".data = some ([], "</table>".data) := by
    decide
  rw [previewHtml_eq]
  refine tableBodyRows_shell previewLayout_readable previewHead "</tbody></table>" hhead
    (by decide) (by decide) hfoot (by decide) (rows.map rowCells) ?_
  intro row hrow
  obtain ⟨item, hitem, rfl⟩ := List.mem_map.1 hrow
  exact rowCells_noStart item (hclean item hitem)

/-- C9, as the code has it: for rows whose eight inserted texts hold no `<`,
the body of the result table reads back as exactly one row per element of `D`,
in the order of `D`, each with the eight cells id, configuration item, the
three scores, the risk level badge, solution and location (the em dash where
solution or location is missing); and the body of the preview table reads back
as the same rows with the same cells. -/
theorem tables_show_rows (D : List Row)
    (hclean : ∀ item ∈ D, ∀ t ∈ rowTexts item, '<' ∉ t.data) :
    tableBodyRows (tableHtml D) = D.map rowCells ∧
    tableBodyRows (previewHtml D) = tableBodyRows (tableHtml D) ∧
    (tableBodyRows (tableHtml D)).length = D.length ∧
    (∀ (i : Nat) (h : i < D.length),
      (tableBodyRows (tableHtml D))[i]? =
        some [textOr (D.get ⟨i, h⟩).id "", textOr (D.get ⟨i, h⟩).configurationItem "",
          (D.get ⟨i, h⟩).severityScore.toStr, (D.get ⟨i, h⟩).frequencyScore.toStr,
          (D.get ⟨i, h⟩).impactScore.toStr,
          "<span class=\"badge " ++ (D.get ⟨i, h⟩).riskLevel.toStr ++ "\">" ++
            (D.get ⟨i, h⟩).riskLevel.toStr ++ "</span>",
          textOr (D.get ⟨i, h⟩).solution "—", textOr (D.get ⟨i, h⟩).location "—"]) ∧
    (∀ item ∈ D,
      (item.solution = JsVal.undefined → (rowCells item)[6]? = some "—") ∧
      (item.location = JsVal.undefined → (rowCells item)[7]? = some "—")) := by
  have ht := tableBodyRows_tableHtml D hclean
  refine ⟨ht, by rw [ht, tableBodyRows_previewHtml D hclean], by rw [ht, List.length_map],
    ?_, ?_⟩
  · intro i h
    rw [ht]
    simp [List.getElem?_map, List.getElem?_eq_getElem h, rowCells, riskBadge]
  · intro item _
    constructor
    · intro h; simp [rowCells, textOr, h, JsVal.truthy]
    · intro h; simp [rowCells, textOr, h, JsVal.truthy]

/-- C9 at the one-row list of the scenario, whose row has neither solution nor
location. -/
theorem tables_show_rows_witness :
    tableBodyRows (tableHtml [rowINC1]) =
      [["INC1", "", "5", "3", "4", "<span class=\"badge 高風險\">高風險</span>", "—", "—"]] ∧
    tableBodyRows (previewHtml [rowINC1]) = tableBodyRows (tableHtml [rowINC1]) :=
  ⟨(tables_show_rows [rowINC1] (by decide)).1.trans (by decide),
   (tables_show_rows [rowINC1] (by decide)).2.1⟩

set_option maxRecDepth 100000 in
theorem tableBodyRows_rowWithMarkup :
    tableBodyRows (tableHtml [rowWithMarkup]) =
      [["INC1", "", "5", "3", "4", "<span class=\"badge 高風險\">高風險</span>", "x"],
       ["y", "—"]] := by
  decide

/-- C9 fails as stated: a row whose `solution` is the text
`x</td></tr><tr><td>y` is one element, but the result table written for it has
two body rows, of seven and of two cells. -/
theorem markup_in_field_splits_row :
    [rowWithMarkup].length = 1 ∧
    tableBodyRows (tableHtml [rowWithMarkup]) =
      [["INC1", "", "5", "3", "4", "<span class=\"badge 高風險\">高風險</span>", "x"],
       ["y", "—"]] ∧
    (tableBodyRows (tableHtml [rowWithMarkup])).length = 2 :=
  ⟨rfl, tableBodyRows_rowWithMarkup, by rw [tableBodyRows_rowWithMarkup]; rfl⟩

/-! ### Dark mode across a reload -/

theorem restoreCachedView_storage (s : Page) : (restoreCachedView s).storage = s.storage := by
  unfold restoreCachedView
  rcases hr : s.storage.resultHTML with _ | r <;> rcases hs : s.storage.summaryHTML with _ | m
  · simp [hr, hs]
  · by_cases hm : m = "" <;> simp [hr, hs, hm]
  · by_cases hr0 : r = "" <;> simp [hr, hs, hr0]
  · by_cases hr0 : r = "" <;> by_cases hm : m = "" <;> simp [hr, hs, hr0, hm]

theorem rebuildHistory_fold_storage (items : List UploadRecord) (s : Page) :
    (items.foldl
      (fun (acc : Page) item =>
        { acc with
          historyItems :=
            acc.historyItems ++ [historyItemMarkup item.file item.time item.summary] })
      s).storage = s.storage := by
  induction items generalizing s with
  | nil => rfl
  | cons a items ih => simp only [List.foldl_cons]; rw [ih]

theorem rebuildHistory_storage (s : Page) : (rebuildHistory s).storage = s.storage :=
  rebuildHistory_fold_storage _ s

theorem applyDarkMode_bodyDark (s : Page) :
    (applyDarkMode s).bodyDark =
      decide (s.storage.darkMode = none ∨ s.storage.darkMode = some "true") ∧
    (applyDarkMode s).storage.darkMode = some (s.storage.darkMode.getD "true") := by
  unfold applyDarkMode
  cases hd : s.storage.darkMode with
  | none => simp
  | some v =>
    by_cases hv : v = "true"
    · subst hv; simp [hd]
    · by_cases hf : v = "false"
      · subst hf; simp [hd]
      · simp [hd, hv, hf]

theorem pageLoad_bodyDark (s : Page) :
    (pageLoad s).bodyDark =
      decide (s.storage.darkMode = none ∨ s.storage.darkMode = some "true") ∧
    (pageLoad s).storage.darkMode = some (s.storage.darkMode.getD "true") := by
  unfold pageLoad
  have h := applyDarkMode_bodyDark (rebuildHistory (restoreCachedView s))
  rw [rebuildHistory_storage, restoreCachedView_storage] at h
  exact h

/-- C7: after the toggle handler has run and the page-load handler then runs on
a freshly loaded page holding the storage the toggle left, `body` has the
`dark-mode` class exactly when it had it right after the toggle, and the stored
flag is `"true"` exactly in that case. -/
theorem dark_mode_survives_reload (s reloaded : Page) :
    (pageLoad { reloaded with storage := (toggleDarkMode s).storage }).bodyDark =
      (toggleDarkMode s).bodyDark ∧
    ((toggleDarkMode s).storage.darkMode = some "true" ↔ (toggleDarkMode s).bodyDark = true) ∧
    (pageLoad { reloaded with storage := (toggleDarkMode s).storage }).storage.darkMode =
      (toggleDarkMode s).storage.darkMode := by
  rw [(pageLoad_bodyDark _).1, (pageLoad_bodyDark _).2]
  cases hb : s.bodyDark <;> simp [toggleDarkMode, hb]

/-! ### Which file a submit takes -/

theorem submitHandler_file (s : Page) : (submitHandler s).2 = selectedFile s := by
  unfold submitHandler
  cases selectedFile s <;> rfl

theorem runFileEvents_concat (events : List FileEvent) (e : FileEvent) (s : Page) :
    runFileEvents (events ++ [e]) s = fileEventHandler (runFileEvents events s) e := by
  simp [runFileEvents, List.foldl_append]

theorem runFileEvents_append (pre post : List FileEvent) (s : Page) :
    runFileEvents (pre ++ post) s = runFileEvents post (runFileEvents pre s) := by
  simp [runFileEvents, List.foldl_append]

theorem changeHandler_fields (files : List File) (s : Page) :
    (changeHandler files s).droppedFile = s.droppedFile ∧
    (changeHandler files s).inputFiles = files := by
  unfold changeHandler
  cases files.head? <;> exact ⟨rfl, rfl⟩

theorem dropHandler_fields (files : List File) (s : Page) :
    (dropHandler files s).droppedFile = files.head? ∧
    (dropHandler files s).inputFiles = files := by
  unfold dropHandler
  cases h : files.head? <;> exact ⟨rfl, rfl⟩

theorem run_changes_fields (changes : List (List File)) (s : Page) :
    (runFileEvents (changes.map FileEvent.change) s).droppedFile = s.droppedFile ∧
    (runFileEvents (changes.map FileEvent.change) s).inputFiles =
      changes.getLast?.getD s.inputFiles := by
  induction changes using List.reverseRecOn with
  | nil => exact ⟨rfl, rfl⟩
  | append_singleton l a ih =>
    rw [List.map_append, List.map_singleton, runFileEvents_concat]
    simp only [fileEventHandler, List.getLast?_concat, Option.getD_some]
    exact ⟨(changeHandler_fields a _).1.trans ih.1, (changeHandler_fields a _).2⟩

/-- C10, as the code has it: the submit handler uses the dropped file first.
It takes the file of the most recent drop event that supplied one, whatever
file-input changes followed it and whatever happened before it; when no
dropped file is pending it takes the file of the most recent change event.
So the latest action wins when it is a drop, and when no dropped file is
pending. -/
theorem submit_takes_dropped_first (earlier : List FileEvent) (changes : List (List File))
    (s : Page) :
    (∀ (files : List File) (f : File), files.head? = some f →
      (submitHandler
        (runFileEvents (earlier ++ FileEvent.drop files :: changes.map FileEvent.change) s)).2 =
        some f) ∧
    (∀ (last : List File), s.droppedFile = none → changes.getLast? = some last →
      (submitHandler (runFileEvents (changes.map FileEvent.change) s)).2 =
        (FileEvent.change last).supplied) := by
  constructor
  · intro files f hf
    rw [submitHandler_file, runFileEvents_append]
    have hrun : runFileEvents (FileEvent.drop files :: changes.map FileEvent.change)
        (runFileEvents earlier s) =
        runFileEvents (changes.map FileEvent.change)
          (dropHandler files (runFileEvents earlier s)) := rfl
    rw [hrun]
    unfold selectedFile
    rw [(run_changes_fields changes _).1, (dropHandler_fields files _).1, hf]
  · intro last hs hlast
    rw [submitHandler_file]
    unfold selectedFile
    rw [(run_changes_fields changes s).1, hs, (run_changes_fields changes s).2, hlast]
    rfl

/-- C10 where the latest action wins: a drop of `a.xlsx` after a change to
`b.xlsx` is taken, and with nothing dropped the last of two changes is taken. -/
theorem submit_takes_dropped_first_witness :
    (submitHandler
      (runFileEvents [FileEvent.change [⟨"b.xlsx", "B"⟩], FileEvent.drop [⟨"a.xlsx", "A"⟩]]
        (Page.fresh Storage.empty true))).2 = some ⟨"a.xlsx", "A"⟩ ∧
    (submitHandler
      (runFileEvents [FileEvent.change [⟨"a.xlsx", "A"⟩], FileEvent.change [⟨"b.xlsx", "B"⟩]]
        (Page.fresh Storage.empty true))).2 = some ⟨"b.xlsx", "B"⟩ :=
  ⟨(submit_takes_dropped_first [FileEvent.change [⟨"b.xlsx", "B"⟩]] []
      (Page.fresh Storage.empty true)).1 [⟨"a.xlsx", "A"⟩] ⟨"a.xlsx", "A"⟩ rfl,
   (submit_takes_dropped_first [] [[⟨"a.xlsx", "A"⟩], [⟨"b.xlsx", "B"⟩]]
      (Page.fresh Storage.empty true)).2 [⟨"b.xlsx", "B"⟩] rfl rfl⟩

/-- C10 fails as stated: after dropping `a.xlsx` and then choosing `b.xlsx` in
the file input, the most recent event supplies `b.xlsx` and the page says
`b.xlsx` is selected, but the submit handler takes `a.xlsx` and, the duplicate
check passed, posts `a.xlsx`. -/
theorem change_after_drop_is_ignored :
    (FileEvent.change [⟨"b.xlsx", "B"⟩]).supplied = some ⟨"b.xlsx", "B"⟩ ∧
    (submitHandler
      (runFileEvents [FileEvent.drop [⟨"a.xlsx", "A"⟩], FileEvent.change [⟨"b.xlsx", "B"⟩]]
        (Page.fresh Storage.empty true))).2 = some ⟨"a.xlsx", "A"⟩ ∧
    (runFileEvents [FileEvent.drop [⟨"a.xlsx", "A"⟩], FileEvent.change [⟨"b.xlsx", "B"⟩]]
        (Page.fresh Storage.empty true)).fileInfoText = "已選擇檔案：b.xlsx" ∧
    uploadsSent (submitAndCheck (CheckResult.loaded 200 (FilesValue.array []))
      (runFileEvents [FileEvent.drop [⟨"a.xlsx", "A"⟩], FileEvent.change [⟨"b.xlsx", "B"⟩]]
        (Page.fresh Storage.empty true))) = [⟨"a.xlsx", "A"⟩] := by
  refine ⟨rfl, rfl, ?_, rfl⟩
  decide

/-! ### The upload response -/

theorem errorParagraph_head (message : String) :
    (errorParagraph message).data.head? = some '<' := by
  simp only [errorParagraph, String.data_append]
  rfl

theorem tableHtml_head (rows : List Row) : (tableHtml rows).data.head? = some '\n' := by
  simp only [tableHtml, tableHead, String.data_append]
  rfl

theorem errorParagraph_ne_tableHtml (message : String) (rows : List Row) :
    errorParagraph message ≠ tableHtml rows := by
  intro h
  have h1 := errorParagraph_head message
  rw [h, tableHtml_head] at h1
  exact absurd h1 (by decide)

/-- C5, as the code has it: for a status 200 response whose body carries a
truthy `error` (for a string: a non-empty one), the completion handler sets
the result area to the red paragraph with that message, which is no result
table, and leaves the summary, the persisted history and the visible history
as they were. -/
theorem truthy_error_shown (file : File) (body : UploadBody) (time : String)
    (innerText : String → String) (s : Page) (herr : body.error.truthy = true) :
    (uploadOnload file 200 (some body) time innerText s).resultHTML =
      errorParagraph body.error.toStr ∧
    (∀ rows, (uploadOnload file 200 (some body) time innerText s).resultHTML ≠ tableHtml rows) ∧
    (uploadOnload file 200 (some body) time innerText s).summaryHTML = s.summaryHTML ∧
    (uploadOnload file 200 (some body) time innerText s).storage.historyData =
      s.storage.historyData ∧
    (uploadOnload file 200 (some body) time innerText s).historyItems = s.historyItems := by
  have h : uploadOnload file 200 (some body) time innerText s =
      { s with
        spinnerShown := false
        progressShown := false
        storage :=
          { s.storage with
            resultHTML := some s.resultHTML, summaryHTML := some s.summaryHTML }
        resultHTML := errorParagraph body.error.toStr } := by
    simp [uploadOnload, herr]
  rw [h]
  exact ⟨rfl, fun rows => errorParagraph_ne_tableHtml _ rows, rfl, rfl, rfl⟩

/-- C5 at the response `{error: "parse failed"}` of the scenario. -/
theorem truthy_error_shown_witness :
    (uploadOnload reportFile 200 (some ⟨JsVal.str "parse failed", none⟩) "10:00" id
      uploadingPage).resultHTML = "<p style=\"color:red\">錯誤：parse failed</p>" ∧
    (uploadOnload reportFile 200 (some ⟨JsVal.str "parse failed", none⟩) "10:00" id
      uploadingPage).historyItems = [] :=
  ⟨(truthy_error_shown reportFile ⟨JsVal.str "parse failed", none⟩ "10:00" id uploadingPage
      rfl).1.trans (by decide),
   (truthy_error_shown reportFile ⟨JsVal.str "parse failed", none⟩ "10:00" id uploadingPage
      rfl).2.2.2.2.trans (by decide)⟩

/-- C5 fails as stated: the body `{error: ""}` carries an explicit error field,
yet the handler skips the error branch (`""` is falsy), `data.data.map` throws
on the missing `data`, and the result area stays empty instead of showing the
red paragraph. -/
theorem empty_error_not_shown :
    (⟨JsVal.str "", none⟩ : UploadBody).error ≠ JsVal.undefined ∧
    (uploadOnload reportFile 200 (some ⟨JsVal.str "", none⟩) "10:00" id
      uploadingPage).resultHTML = "" ∧
    (uploadOnload reportFile 200 (some ⟨JsVal.str "", none⟩) "10:00" id
      uploadingPage).resultHTML ≠ errorParagraph (JsVal.str "").toStr := by
  refine ⟨by decide, by decide, by decide⟩

/-- What `xhr.onload` persists is the markup the result area and the summary
box held when the handler started, whatever the response is. -/
theorem uploadOnload_persists_old_markup (file : File) (status : Nat)
    (body : Option UploadBody) (time : String) (innerText : String → String) (s : Page) :
    (uploadOnload file status body time innerText s).storage.resultHTML = some s.resultHTML ∧
    (uploadOnload file status body time innerText s).storage.summaryHTML =
      some s.summaryHTML := by
  unfold uploadOnload
  by_cases hst : status = 200
  · rcases body with _ | data
    · simp [hst]
    · by_cases herr : data.error.truthy = true
      · simp [hst, herr]
      · rcases hd : data.data with _ | rows
        · simp [hst, herr, hd]
        · simp [hst, herr, hd, addHistoryItem, updateSummary]
  · simp [hst]

theorem submitHandler_clears (s : Page) :
    (submitHandler s).1.resultHTML = "" ∧ (submitHandler s).1.summaryHTML = "" := by
  unfold submitHandler
  cases selectedFile s <;> exact ⟨rfl, rfl⟩

/-- C6 fails on the code: in the scenario (`report.xlsx` submitted, duplicate
check passed, response `{data: [INC1]}` with status 200) the handler shows the
table and the summary rendered from the rows, but the persisted `resultHTML`
and `summaryHTML` are the empty strings the submit handler had left, and the
next page load restores nothing. -/
theorem cached_view_is_stale :
    uploadedPage.resultHTML = tableHtml [rowINC1] ∧
    uploadedPage.summaryHTML = summaryMarkup ⟨1, 1, 0, 0, 0⟩ ∧
    uploadedPage.storage.resultHTML = some "" ∧
    uploadedPage.storage.summaryHTML = some "" ∧
    uploadedPage.storage.resultHTML ≠ some (tableHtml [rowINC1]) ∧
    uploadedPage.storage.summaryHTML ≠ some (summaryMarkup ⟨1, 1, 0, 0, 0⟩) ∧
    (pageLoad (Page.fresh uploadedPage.storage true)).resultHTML = "" ∧
    (pageLoad (Page.fresh uploadedPage.storage true)).summaryHTML = "" := by
  refine ⟨rfl, rfl, by decide, by decide, by decide, by decide, by decide, by decide⟩

/-! ### Upload progress -/

theorem toFixed_of_nonneg {x : ℚ} (hx : 0 ≤ x) (digits : Nat) :
    toFixed x digits = (⌊x * 10 ^ digits + 1 / 2⌋ : ℚ) / 10 ^ digits := by
  unfold toFixed
  rw [if_pos hx]

theorem toFixed_mono {x y : ℚ} (hx : 0 ≤ x) (hxy : x ≤ y) (digits : Nat) :
    toFixed x digits ≤ toFixed y digits := by
  rw [toFixed_of_nonneg hx, toFixed_of_nonneg (hx.trans hxy)]
  have hpow : (0 : ℚ) < 10 ^ digits := by positivity
  have hfl : ⌊x * 10 ^ digits + 1 / 2⌋ ≤ ⌊y * 10 ^ digits + 1 / 2⌋ :=
    Int.floor_mono (by nlinarith)
  have hcast : (⌊x * 10 ^ digits + 1 / 2⌋ : ℚ) ≤ (⌊y * 10 ^ digits + 1 / 2⌋ : ℚ) := by
    exact_mod_cast hfl
  exact div_le_div_of_nonneg_right hcast hpow.le

theorem toFixed_hundred (digits : Nat) : toFixed 100 digits = 100 := by
  rw [toFixed_of_nonneg (by norm_num)]
  have hpow : (0 : ℚ) < 10 ^ digits := by positivity
  have hfl : ⌊(100 : ℚ) * 10 ^ digits + 1 / 2⌋ = 100 * 10 ^ digits := by
    rw [Int.floor_eq_iff]
    push_cast
    constructor <;> linarith
  rw [hfl]
  push_cast
  field_simp

theorem roundHalfEven_eq_of_lt {q : ℚ} {n : ℤ} (h1 : (n : ℚ) - 1 / 2 < q)
    (h2 : q < n + 1 / 2) : roundHalfEven q = n := by
  unfold roundHalfEven
  by_cases hq : (n : ℚ) ≤ q
  · have hf : ⌊q⌋ = n := by
      rw [Int.floor_eq_iff]
      exact ⟨hq, by linarith⟩
    rw [hf, if_pos (by linarith)]
  · push_neg at hq
    have hf : ⌊q⌋ = n - 1 := by
      rw [Int.floor_eq_iff]
      push_cast
      exact ⟨by linarith, by linarith⟩
    rw [hf]
    push_cast
    rw [if_neg (by linarith), if_pos (by linarith)]
    ring

theorem roundHalfEven_intCast (n : ℤ) : roundHalfEven (n : ℚ) = n :=
  roundHalfEven_eq_of_lt (by linarith) (by linarith)

theorem floor_le_roundHalfEven (q : ℚ) : ⌊q⌋ ≤ roundHalfEven q := by
  unfold roundHalfEven
  split_ifs <;> omega

theorem roundHalfEven_le_floor_succ (q : ℚ) : roundHalfEven q ≤ ⌊q⌋ + 1 := by
  unfold roundHalfEven
  split_ifs <;> omega

theorem int_le_roundHalfEven {q : ℚ} {n : ℤ} (h : (n : ℚ) ≤ q) : n ≤ roundHalfEven q :=
  (Int.le_floor.2 h).trans (floor_le_roundHalfEven q)

theorem roundHalfEven_le_int {q : ℚ} {n : ℤ} (h : q ≤ (n : ℚ)) : roundHalfEven q ≤ n := by
  have hfl : ⌊q⌋ ≤ n := (Int.floor_le_floor h).trans (by rw [Int.floor_intCast])
  by_cases hlt : ⌊q⌋ < n
  · exact (roundHalfEven_le_floor_succ q).trans (by omega)
  · have hfn : ⌊q⌋ = n := by omega
    have hqn : q = n := le_antisymm h (by rw [← hfn]; exact Int.floor_le q)
    rw [hqn, roundHalfEven_intCast]

theorem roundHalfEven_mono {q r : ℚ} (h : q ≤ r) : roundHalfEven q ≤ roundHalfEven r := by
  have hfl : ⌊q⌋ ≤ ⌊r⌋ := Int.floor_le_floor h
  by_cases hlt : ⌊q⌋ < ⌊r⌋
  · exact (roundHalfEven_le_floor_succ q).trans ((by omega : ⌊q⌋ + 1 ≤ ⌊r⌋).trans
      (floor_le_roundHalfEven r))
  · have hfn : ⌊q⌋ = ⌊r⌋ := by omega
    unfold roundHalfEven
    rw [hfn]
    split_ifs <;> first | omega | (exfalso; linarith)

theorem two_zpow_pos (e : ℤ) : (0 : ℚ) < 2 ^ e := by positivity

theorem log_two_eq {x : ℚ} {e : ℤ} (h1 : (2 : ℚ) ^ e ≤ x) (h2 : x < 2 ^ (e + 1)) :
    Int.log 2 x = e := by
  have hx : 0 < x := (two_zpow_pos e).trans_le h1
  have ha : e ≤ Int.log 2 x := (Int.zpow_le_iff_le_log (by norm_num) hx).1 (by exact_mod_cast h1)
  have hb : Int.log 2 x < e + 1 :=
    (Int.lt_zpow_iff_log_lt (by norm_num) hx).1 (by exact_mod_cast h2)
  omega

theorem log_two_bounds {x : ℚ} (hx : 0 < x) :
    (2 : ℚ) ^ Int.log 2 x ≤ x ∧ x < 2 ^ (Int.log 2 x + 1) := by
  have h1 := Int.zpow_log_le_self (b := 2) (by norm_num) hx
  have h2 := Int.lt_zpow_succ_log_self (b := 2) (by norm_num) x
  exact ⟨by exact_mod_cast h1, by exact_mod_cast h2⟩

theorem roundDouble_of_pos {x : ℚ} (hx : 0 < x) :
    roundDouble x =
      (roundHalfEven (x / 2 ^ (Int.log 2 x - 52)) : ℚ) * 2 ^ (Int.log 2 x - 52) := by
  unfold roundDouble
  rw [if_neg hx.ne.symm, if_pos hx]

theorem roundDouble_zero : roundDouble 0 = 0 := by
  unfold roundDouble
  rw [if_pos rfl]

/-- A positive value rounds into its own binade, ends included. -/
theorem roundDouble_bounds {x : ℚ} (hx : 0 < x) :
    (2 : ℚ) ^ Int.log 2 x ≤ roundDouble x ∧ roundDouble x ≤ 2 ^ (Int.log 2 x + 1) := by
  obtain ⟨h1, h2⟩ := log_two_bounds hx
  have hu : (0 : ℚ) < 2 ^ (Int.log 2 x - 52) := two_zpow_pos _
  have hN52 : ((2 ^ 52 : ℤ) : ℚ) = (2 : ℚ) ^ (52 : ℤ) := by norm_num
  have hN53 : ((2 ^ 53 : ℤ) : ℚ) = (2 : ℚ) ^ (53 : ℤ) := by norm_num
  have e1 : (2 : ℚ) ^ Int.log 2 x = ((2 ^ 52 : ℤ) : ℚ) * 2 ^ (Int.log 2 x - 52) := by
    rw [hN52, ← zpow_add₀ (by norm_num : (2 : ℚ) ≠ 0)]
    congr 1
    omega
  have e2 : (2 : ℚ) ^ (Int.log 2 x + 1) = ((2 ^ 53 : ℤ) : ℚ) * 2 ^ (Int.log 2 x - 52) := by
    rw [hN53, ← zpow_add₀ (by norm_num : (2 : ℚ) ≠ 0)]
    congr 1
    omega
  rw [roundDouble_of_pos hx]
  constructor
  · rw [e1]
    apply mul_le_mul_of_nonneg_right _ hu.le
    have : ((2 ^ 52 : ℤ) : ℚ) ≤ x / 2 ^ (Int.log 2 x - 52) := by
      rw [le_div_iff₀ hu, ← e1]
      exact h1
    exact_mod_cast int_le_roundHalfEven this
  · rw [e2]
    apply mul_le_mul_of_nonneg_right _ hu.le
    have : x / 2 ^ (Int.log 2 x - 52) ≤ ((2 ^ 53 : ℤ) : ℚ) := by
      rw [div_le_iff₀ hu, ← e2]
      exact h2.le
    exact_mod_cast roundHalfEven_le_int this

theorem roundDouble_nonneg {x : ℚ} (hx : 0 ≤ x) : 0 ≤ roundDouble x := by
  rcases hx.eq_or_lt with h | h
  · rw [← h, roundDouble_zero]
  · exact (two_zpow_pos _).le.trans (roundDouble_bounds h).1

theorem roundDouble_pos {x : ℚ} (hx : 0 < x) : 0 < roundDouble x :=
  (two_zpow_pos _).trans_le (roundDouble_bounds hx).1

theorem roundDouble_mono {x y : ℚ} (hx : 0 ≤ x) (hxy : x ≤ y) :
    roundDouble x ≤ roundDouble y := by
  rcases hx.eq_or_lt with h | h
  · rw [← h, roundDouble_zero]
    exact roundDouble_nonneg (hx.trans hxy)
  · have hy : 0 < y := h.trans_le hxy
    have hlog : Int.log 2 x ≤ Int.log 2 y := Int.log_mono_right h hxy
    by_cases hlt : Int.log 2 x < Int.log 2 y
    · refine (roundDouble_bounds h).2.trans (le_trans ?_ (roundDouble_bounds hy).1)
      exact zpow_le_zpow_right₀ (by norm_num) (by omega)
    · have heq : Int.log 2 x = Int.log 2 y := by omega
      rw [roundDouble_of_pos h, roundDouble_of_pos hy, heq]
      have hu : (0 : ℚ) < 2 ^ (Int.log 2 y - 52) := two_zpow_pos _
      apply mul_le_mul_of_nonneg_right _ hu.le
      exact_mod_cast roundHalfEven_mono (div_le_div_of_nonneg_right hxy hu.le)

theorem roundDouble_eq {x : ℚ} (e n : ℤ) (h1 : (2 : ℚ) ^ e ≤ x) (h2 : x < 2 ^ (e + 1))
    (h3 : (n : ℚ) - 1 / 2 < x / 2 ^ (e - 52)) (h4 : x / 2 ^ (e - 52) < n + 1 / 2) :
    roundDouble x = n * 2 ^ (e - 52) := by
  have hx : 0 < x := (two_zpow_pos e).trans_le h1
  rw [roundDouble_of_pos hx, log_two_eq h1 h2, roundHalfEven_eq_of_lt h3 h4]

theorem roundDouble_one : roundDouble 1 = 1 := by
  rw [roundDouble_eq 0 (2 ^ 52) (by norm_num) (by norm_num) (by norm_num) (by norm_num)]
  norm_num

theorem roundDouble_hundred : roundDouble 100 = 100 := by
  rw [roundDouble_eq 6 (100 * 2 ^ 46) (by norm_num) (by norm_num) (by norm_num) (by norm_num)]
  norm_num

theorem toNumber_exact {n : Nat} (h : n < 2 ^ 53) : toNumber n = n := by
  unfold toNumber
  rcases Nat.eq_zero_or_pos n with h0 | hpos
  · subst h0
    simpa using roundDouble_zero
  · have hx : (0 : ℚ) < (n : ℚ) := by exact_mod_cast hpos
    obtain ⟨hb1, hb2⟩ := log_two_bounds hx
    have hlo : 0 ≤ Int.log 2 (n : ℚ) :=
      (Int.zpow_le_iff_le_log (by norm_num) hx).1 (by
        have : (1 : ℚ) ≤ n := by exact_mod_cast hpos
        simpa using this)
    have hhi : Int.log 2 (n : ℚ) < 53 :=
      (Int.lt_zpow_iff_log_lt (by norm_num) hx).1 (by
        have h' : (n : ℚ) < (2 : ℚ) ^ (53 : ℤ) := by
          rw [show (53 : ℤ) = ((53 : ℕ) : ℤ) from rfl, zpow_natCast]
          exact_mod_cast h
        exact_mod_cast h')
    obtain ⟨k, hk⟩ : ∃ k : ℕ, (k : ℤ) = 52 - Int.log 2 (n : ℚ) := ⟨(52 - Int.log 2 (n : ℚ)).toNat, by omega⟩
    have hu : (2 : ℚ) ^ (Int.log 2 (n : ℚ) - 52) = ((2 : ℚ) ^ k)⁻¹ := by
      rw [← zpow_natCast, ← zpow_neg]
      congr 1
      omega
    have hpow : (0 : ℚ) < 2 ^ k := by positivity
    rw [roundDouble_of_pos hx, hu]
    have hint : (n : ℚ) / ((2 : ℚ) ^ k)⁻¹ = (((n * 2 ^ k : ℕ) : ℤ) : ℚ) := by
      push_cast
      field_simp
    rw [hint, roundHalfEven_intCast]
    push_cast
    field_simp

theorem toFixed_eq_iff {p : ℚ} (hp : 0 ≤ p) (digits : Nat) (n : ℤ) :
    toFixed p digits = (n : ℚ) / 10 ^ digits ↔
      (n : ℚ) - 1 / 2 ≤ p * 10 ^ digits ∧ p * 10 ^ digits < n + 1 / 2 := by
  have hpow : (0 : ℚ) < 10 ^ digits := by positivity
  rw [toFixed_of_nonneg hp, div_left_inj' hpow.ne.symm, Int.cast_inj, Int.floor_eq_iff]
  constructor <;> rintro ⟨h1, h2⟩ <;> constructor <;> linarith

theorem toFixed_zero_eq_hundred_iff {p : ℚ} (hp : 0 ≤ p) (hle : p ≤ 100) :
    toFixed p 0 = 100 ↔ 199 / 2 ≤ p := by
  have h := toFixed_eq_iff hp 0 100
  norm_num at h
  rw [h]
  constructor
  · intro h1; linarith [h1.1]
  · intro h1; exact ⟨by linarith, by linarith⟩

theorem toFixed_two_eq_hundred_iff {p : ℚ} (hp : 0 ≤ p) (hle : p ≤ 100) :
    toFixed p 2 = 100 ↔ 19999 / 200 ≤ p := by
  have h := toFixed_eq_iff hp 2 10000
  norm_num at h
  rw [h]
  constructor
  · intro h1; linarith [h1.1]
  · intro h1; exact ⟨by linarith, by linarith⟩

theorem toFixed_ninety_nine (digits : Nat) : toFixed 99 digits = 99 := by
  rw [toFixed_of_nonneg (by norm_num)]
  have hpow : (0 : ℚ) < 10 ^ digits := by positivity
  have hfl : ⌊(99 : ℚ) * 10 ^ digits + 1 / 2⌋ = 99 * 10 ^ digits := by
    rw [Int.floor_eq_iff]
    push_cast
    constructor <;> linarith
  rw [hfl]
  push_cast
  field_simp

theorem toNumber_nonneg (n : Nat) : 0 ≤ toNumber n :=
  roundDouble_nonneg (Nat.cast_nonneg n)

theorem toNumber_pos {n : Nat} (h : 0 < n) : 0 < toNumber n :=
  roundDouble_pos (by exact_mod_cast h)

theorem toNumber_mono {m n : Nat} (h : m ≤ n) : toNumber m ≤ toNumber n :=
  roundDouble_mono (Nat.cast_nonneg m) (by exact_mod_cast h)

theorem percentDouble_nonneg (loaded total : Nat) : 0 ≤ percentDouble loaded total := by
  unfold percentDouble
  apply roundDouble_nonneg
  apply mul_nonneg _ (by norm_num)
  exact roundDouble_nonneg (div_nonneg (toNumber_nonneg _) (toNumber_nonneg _))

theorem percentDouble_mono {loaded later : Nat} (total : Nat) (h : loaded ≤ later) :
    percentDouble loaded total ≤ percentDouble later total := by
  unfold percentDouble
  have hq : toNumber loaded / toNumber total ≤ toNumber later / toNumber total :=
    div_le_div_of_nonneg_right (toNumber_mono h) (toNumber_nonneg total)
  have hr := roundDouble_mono (div_nonneg (toNumber_nonneg _) (toNumber_nonneg _)) hq
  exact roundDouble_mono
    (mul_nonneg (roundDouble_nonneg (div_nonneg (toNumber_nonneg _) (toNumber_nonneg _)))
      (by norm_num))
    (by linarith)

theorem percentDouble_full {total : Nat} (ht : 0 < total) : percentDouble total total = 100 := by
  unfold percentDouble
  rw [div_self (toNumber_pos ht).ne.symm, roundDouble_one, one_mul, roundDouble_hundred]

/-- With an exactly represented total, a quotient of at most `c` gives a percent
of at most the rounded `100 * round c`. -/
theorem percentDouble_le_of_quotient_le {loaded total : Nat} (ht : 0 < total)
    (h53 : total < 2 ^ 53) (hlt : loaded ≤ total) {c : ℚ} (hc : (loaded : ℚ) / total ≤ c) :
    percentDouble loaded total ≤ roundDouble (roundDouble c * 100) := by
  unfold percentDouble
  rw [toNumber_exact h53, toNumber_exact (lt_of_le_of_lt hlt h53)]
  have htq : (0 : ℚ) < total := by exact_mod_cast ht
  have hq0 : (0 : ℚ) ≤ (loaded : ℚ) / total := div_nonneg (Nat.cast_nonneg _) htq.le
  have hr := roundDouble_mono hq0 hc
  exact roundDouble_mono (mul_nonneg (roundDouble_nonneg hq0) (by norm_num)) (by linarith)

theorem roundDouble_below_one :
    roundDouble (roundDouble (1 - 1 / 2 ^ 53) * 100) = 100 - 1 / 2 ^ 46 := by
  have h1 : roundDouble (1 - 1 / 2 ^ 53) = 1 - 1 / 2 ^ 53 := by
    rw [roundDouble_eq (-1) (2 ^ 53 - 1) (by norm_num) (by norm_num) (by norm_num)
      (by norm_num)]
    norm_num
  rw [h1, roundDouble_eq 6 (100 * 2 ^ 46 - 1) (by norm_num) (by norm_num) (by norm_num)
    (by norm_num)]
  norm_num

theorem roundDouble_ninety_nine : roundDouble (roundDouble (99 / 100) * 100) = 99 := by
  have h1 : roundDouble (99 / 100) = 8917127262193582 / 2 ^ 53 := by
    rw [roundDouble_eq (-1) 8917127262193582 (by norm_num) (by norm_num) (by norm_num)
      (by norm_num)]
    norm_num
  rw [h1, roundDouble_eq 6 (99 * 2 ^ 46) (by norm_num) (by norm_num) (by norm_num)
    (by norm_num)]
  norm_num

theorem roundDouble_below_text_threshold :
    roundDouble (roundDouble (199 / 200 - 1 / 2 ^ 50) * 100) = 7001690045677562 / 2 ^ 46 := by
  have h1 : roundDouble (199 / 200 - 1 / 2 ^ 50) = 8962163258467279 / 2 ^ 53 := by
    rw [roundDouble_eq (-1) 8962163258467279 (by norm_num) (by norm_num) (by norm_num)
      (by norm_num)]
    norm_num
  rw [h1, roundDouble_eq 6 7001690045677562 (by norm_num) (by norm_num) (by norm_num)
    (by norm_num)]
  norm_num

theorem roundDouble_below_width_threshold :
    roundDouble (roundDouble (19999 / 20000 - 1 / 2 ^ 50) * 100) =
      7036522574045505 / 2 ^ 46 := by
  have h1 : roundDouble (19999 / 20000 - 1 / 2 ^ 50) = 9006748894778247 / 2 ^ 53 := by
    rw [roundDouble_eq (-1) 9006748894778247 (by norm_num) (by norm_num) (by norm_num)
      (by norm_num)]
    norm_num
  rw [h1, roundDouble_eq 6 7036522574045505 (by norm_num) (by norm_num) (by norm_num)
    (by norm_num)]
  norm_num

theorem percentDouble_23_40 : percentDouble 23 40 = 8092405580431359 / 2 ^ 47 := by
  unfold percentDouble
  rw [toNumber_exact (by norm_num), toNumber_exact (by norm_num)]
  have h1 : roundDouble ((23 : ℕ) / (40 : ℕ)) = 5179139571476070 / 2 ^ 53 := by
    rw [roundDouble_eq (-1) 5179139571476070 (by norm_num) (by norm_num) (by norm_num)
      (by norm_num)]
    norm_num
  rw [h1, roundDouble_eq 5 8092405580431359 (by norm_num) (by norm_num) (by norm_num)
    (by norm_num)]
  norm_num

theorem percentDouble_32767_32768 : percentDouble 32767 32768 = 819175 / 8192 := by
  unfold percentDouble
  rw [toNumber_exact (by norm_num), toNumber_exact (by norm_num)]
  have h1 : roundDouble ((32767 : ℕ) / (32768 : ℕ)) = 32767 / 32768 := by
    rw [roundDouble_eq (-1) (32767 * 2 ^ 38) (by norm_num) (by norm_num) (by norm_num)
      (by norm_num)]
    norm_num
  rw [h1, roundDouble_eq 6 (3276700 * 2 ^ 31) (by norm_num) (by norm_num) (by norm_num)
    (by norm_num)]
  norm_num

theorem onprogress_shown (loaded : Nat) {total : Nat} (ht : 0 < total) (s : Page) :
    (onprogress true loaded total s).progressPercentText =
      Num.finite (toFixed (percentDouble loaded total) 0) ∧
    (onprogress true loaded total s).progressFillWidth =
      Num.finite (toFixed (percentDouble loaded total) 2) := by
  have hne : ¬ toNumber total = 0 := (toNumber_pos ht).ne.symm
  simp [onprogress, progressPercent, hne, Num.toFixed]

theorem toFixed_value {p : ℚ} (hp : 0 ≤ p) (digits : Nat) (n : ℤ)
    (h1 : (n : ℚ) - 1 / 2 ≤ p * 10 ^ digits) (h2 : p * 10 ^ digits < n + 1 / 2) :
    toFixed p digits = (n : ℚ) / 10 ^ digits :=
  (toFixed_eq_iff hp digits n).2 ⟨h1, h2⟩

theorem shown_23_40 :
    toFixed (percentDouble 23 40) 0 = 57 ∧ toFixed (percentDouble 23 40) 2 = 115 / 2 := by
  rw [percentDouble_23_40]
  constructor
  · rw [toFixed_value (by norm_num) 0 57 (by norm_num) (by norm_num)]
    norm_num
  · rw [toFixed_value (by norm_num) 2 5750 (by norm_num) (by norm_num)]
    norm_num

theorem shown_32767_32768 :
    toFixed (percentDouble 32767 32768) 0 = 100 ∧
    toFixed (percentDouble 32767 32768) 2 = 100 := by
  rw [percentDouble_32767_32768]
  constructor
  · rw [toFixed_value (by norm_num) 0 100 (by norm_num) (by norm_num)]
    norm_num
  · rw [toFixed_value (by norm_num) 2 10000 (by norm_num) (by norm_num)]
    norm_num

/-- C8, as the code has it: for `total > 0` and `loaded ≤ later ≤ total`, both
shown numbers (percent text, rounded to no decimals; bar width, rounded to two)
are non-decreasing in `loaded`, are 100 when `loaded = total` and never exceed
100.  The text shows 100 exactly when the computed percent is at least 99.5
and the width exactly when it is at least 99.995, so below these both show
less than 100.  For a total below `2^53` the computed percent is below 100
whenever `loaded < total`, and both shown numbers are at most 99 whenever at
most 99 percent of the bytes are sent; for a total below `2^32` the text shows
at most 99 whenever `loaded / total < 0.995` and the width at most 99.99
whenever `loaded / total < 0.99995`. -/
theorem progress_shown_monotone (loaded later total : Nat) (s : Page) (ht : 0 < total)
    (h1 : loaded ≤ later) (h2 : later ≤ total) :
    (onprogress true loaded total s).progressPercentText =
      Num.finite (toFixed (percentDouble loaded total) 0) ∧
    (onprogress true loaded total s).progressFillWidth =
      Num.finite (toFixed (percentDouble loaded total) 2) ∧
    toFixed (percentDouble loaded total) 0 ≤ toFixed (percentDouble later total) 0 ∧
    toFixed (percentDouble loaded total) 2 ≤ toFixed (percentDouble later total) 2 ∧
    toFixed (percentDouble total total) 0 = 100 ∧
    toFixed (percentDouble total total) 2 = 100 ∧
    toFixed (percentDouble loaded total) 0 ≤ 100 ∧
    toFixed (percentDouble loaded total) 2 ≤ 100 ∧
    (toFixed (percentDouble loaded total) 0 = 100 ↔ 199 / 2 ≤ percentDouble loaded total) ∧
    (toFixed (percentDouble loaded total) 2 = 100 ↔
      19999 / 200 ≤ percentDouble loaded total) ∧
    (total < 2 ^ 53 → loaded < total → percentDouble loaded total < 100) ∧
    (total < 2 ^ 53 → 100 * loaded ≤ 99 * total →
      toFixed (percentDouble loaded total) 0 ≤ 99 ∧
      toFixed (percentDouble loaded total) 2 ≤ 99) ∧
    (total < 2 ^ 32 → 200 * loaded < 199 * total →
      toFixed (percentDouble loaded total) 0 ≤ 99) ∧
    (total < 2 ^ 32 → 20000 * loaded < 19999 * total →
      toFixed (percentDouble loaded total) 2 ≤ 9999 / 100) := by
  have hfull : percentDouble total total = 100 := percentDouble_full ht
  have hnn := percentDouble_nonneg loaded total
  have hle : percentDouble loaded total ≤ 100 :=
    hfull ▸ percentDouble_mono total (h1.trans h2)
  have hshown : ∀ digits, toFixed (percentDouble loaded total) digits ≤ 100 := by
    intro digits
    have := toFixed_mono hnn hle digits
    rwa [toFixed_hundred] at this
  have htq : (0 : ℚ) < total := by exact_mod_cast ht
  refine ⟨(onprogress_shown loaded ht s).1, (onprogress_shown loaded ht s).2,
    toFixed_mono hnn (percentDouble_mono total h1) 0,
    toFixed_mono hnn (percentDouble_mono total h1) 2,
    by rw [hfull, toFixed_hundred], by rw [hfull, toFixed_hundred],
    hshown 0, hshown 2, toFixed_zero_eq_hundred_iff hnn hle,
    toFixed_two_eq_hundred_iff hnn hle, ?_, ?_, ?_, ?_⟩
  · intro h53 hlt
    have hc : (loaded : ℚ) / total ≤ 1 - 1 / 2 ^ 53 := by
      rw [div_le_iff₀ htq]
      have hl : (loaded : ℚ) + 1 ≤ total := by exact_mod_cast hlt
      have ht53 : (total : ℚ) ≤ 2 ^ 53 := by exact_mod_cast h53.le
      nlinarith
    have := percentDouble_le_of_quotient_le ht h53 hlt.le hc
    rw [roundDouble_below_one] at this
    have hpos : (0 : ℚ) < 1 / 2 ^ 46 := by positivity
    linarith
  · intro h53 h99
    have hlt : loaded ≤ total := by omega
    have hc : (loaded : ℚ) / total ≤ 99 / 100 := by
      rw [div_le_iff₀ htq]
      have : (100 : ℚ) * loaded ≤ 99 * total := by exact_mod_cast h99
      linarith
    have := percentDouble_le_of_quotient_le ht h53 hlt hc
    rw [roundDouble_ninety_nine] at this
    have h0 := toFixed_mono hnn this 0
    have h2' := toFixed_mono hnn this 2
    rw [toFixed_ninety_nine] at h0 h2'
    exact ⟨h0, h2'⟩
  · intro h32 hlt
    have h53 : total < 2 ^ 53 := lt_trans h32 (by norm_num)
    have ht32 : (total : ℚ) ≤ 2 ^ 32 := by exact_mod_cast h32.le
    have hl : (200 : ℚ) * loaded + 1 ≤ 199 * total := by exact_mod_cast hlt
    have hc : (loaded : ℚ) / total ≤ 199 / 200 - 1 / 2 ^ 50 := by
      rw [div_le_iff₀ htq]
      nlinarith
    have := percentDouble_le_of_quotient_le ht h53 (by omega) hc
    rw [roundDouble_below_text_threshold] at this
    have h0 := toFixed_mono hnn this 0
    have hv : toFixed (7001690045677562 / 2 ^ 46 : ℚ) 0 = ((99 : ℤ) : ℚ) / 10 ^ 0 :=
      toFixed_value (by norm_num) 0 99 (by norm_num) (by norm_num)
    rw [hv] at h0
    simpa using h0
  · intro h32 hlt
    have h53 : total < 2 ^ 53 := lt_trans h32 (by norm_num)
    have ht32 : (total : ℚ) ≤ 2 ^ 32 := by exact_mod_cast h32.le
    have hl : (20000 : ℚ) * loaded + 1 ≤ 19999 * total := by exact_mod_cast hlt
    have hc : (loaded : ℚ) / total ≤ 19999 / 20000 - 1 / 2 ^ 50 := by
      rw [div_le_iff₀ htq]
      nlinarith
    have := percentDouble_le_of_quotient_le ht h53 (by omega) hc
    rw [roundDouble_below_width_threshold] at this
    have h0 := toFixed_mono hnn this 2
    have hv : toFixed (7036522574045505 / 2 ^ 46 : ℚ) 2 = ((9999 : ℤ) : ℚ) / 10 ^ 2 :=
      toFixed_value (by norm_num) 2 9999 (by norm_num) (by norm_num)
    rw [hv] at h0
    norm_num at h0 ⊢
    exact h0

/-- C8 at 23 of 40 bytes: the computed percent is 57.49999999999999, shown as
57 in the text and 57.50 in the bar width. -/
theorem progress_shown_monotone_witness :
    (onprogress true 23 40 (Page.fresh Storage.empty true)).progressPercentText =
      Num.finite 57 ∧
    (onprogress true 23 40 (Page.fresh Storage.empty true)).progressFillWidth =
      Num.finite (115 / 2) ∧
    toFixed (percentDouble 23 40) 0 ≤ toFixed (percentDouble 24 40) 0 :=
  ⟨(progress_shown_monotone 23 24 40 (Page.fresh Storage.empty true) (by decide) (by decide)
      (by decide)).1.trans (by rw [shown_23_40.1]),
   (progress_shown_monotone 23 24 40 (Page.fresh Storage.empty true) (by decide) (by decide)
      (by decide)).2.1.trans (by rw [shown_23_40.2]),
   (progress_shown_monotone 23 24 40 (Page.fresh Storage.empty true) (by decide) (by decide)
      (by decide)).2.2.1⟩

/-- C8 fails as stated: with 32767 of 32768 bytes sent the upload body is not
fully sent and the computed percent is 99.9969482421875, yet the percent text
shows 100 and the bar width 100.00. -/
theorem progress_shows_hundred_early :
    (32767 : Nat) < 32768 ∧
    (onprogress true 32767 32768 (Page.fresh Storage.empty true)).progressPercentText =
      Num.finite 100 ∧
    (onprogress true 32767 32768 (Page.fresh Storage.empty true)).progressFillWidth =
      Num.finite 100 ∧
    percentDouble 32767 32768 < 100 := by
  refine ⟨by decide, ?_, ?_, ?_⟩
  · rw [(onprogress_shown 32767 (by decide) _).1, shown_32767_32768.1]
  · rw [(onprogress_shown 32767 (by decide) _).2, shown_32767_32768.2]
  · rw [percentDouble_32767_32768]
    norm_num

/-! ### The caption of the dark-mode button -/

/-- The page-load handler leaves the light-mode caption in dark mode and the
dark-mode caption in light mode. -/
theorem applyDarkMode_caption (s : Page) :
    (applyDarkMode s).toggleCaption =
      if (applyDarkMode s).bodyDark then "🌞 淺色模式" else "🌙 深色模式" := by
  unfold applyDarkMode
  cases hd : s.storage.darkMode with
  | none => simp
  | some v =>
    by_cases hv : v = "true"
    · subst hv; simp [hd]
    · by_cases hf : v = "false"
      · subst hf; simp [hd]
      · simp [hd, hv, hf]

theorem pageLoad_caption (s : Page) :
    (pageLoad s).toggleCaption =
      if (pageLoad s).bodyDark then "🌞 淺色模式" else "🌙 深色模式" :=
  applyDarkMode_caption _

/-- The click handler leaves the dark-mode caption in dark mode and the
light-mode caption in light mode: the reverse of the page-load handler. -/
theorem toggleDarkMode_caption (s : Page) :
    (toggleDarkMode s).toggleCaption =
      if (toggleDarkMode s).bodyDark then "🌙 深色模式" else "🌞 淺色模式" := rfl

/-- C11 fails on the code: a click on the button of a light page puts the body
in dark mode and leaves the caption `🌙 深色模式`, not the light-mode caption;
a reload with the storage the click left is in dark mode too and shows
`🌞 淺色模式`, so the two handlers set different captions for the same mode.
A click on a dark page likewise leaves `🌞 淺色模式` in light mode. -/
theorem toggle_caption_is_reversed :
    (toggleDarkMode (Page.fresh Storage.empty false)).bodyDark = true ∧
    (toggleDarkMode (Page.fresh Storage.empty false)).toggleCaption = "🌙 深色模式" ∧
    (pageLoad (Page.fresh (toggleDarkMode (Page.fresh Storage.empty false)).storage
      false)).bodyDark = true ∧
    (pageLoad (Page.fresh (toggleDarkMode (Page.fresh Storage.empty false)).storage
      false)).toggleCaption = "🌞 淺色模式" ∧
    (toggleDarkMode (Page.fresh Storage.empty false)).toggleCaption ≠
      (pageLoad (Page.fresh (toggleDarkMode (Page.fresh Storage.empty false)).storage
        false)).toggleCaption ∧
    (toggleDarkMode (Page.fresh Storage.empty true)).bodyDark = false ∧
    (toggleDarkMode (Page.fresh Storage.empty true)).toggleCaption = "🌞 淺色模式" := by
  refine ⟨rfl, rfl, by decide, by decide, by decide, rfl, rfl⟩

end FrontEnd
